/-
  Verification of the NeoMart order-assembly workflow.

  Shallow embedding of `OrderService` (createOrder, updateOrderStatus,
  cancelOrder, refundOrder) and the pieces of the data model it touches.
  Monetary amounts are modelled as rationals (JS numbers compared with
  `!==` are compared exactly here), timestamps as integers (epoch millis).
  The database is explicit state threaded through each operation; a thrown
  HTTP error is an `Except.error` carrying the status-code class and the
  message, and every operation returns the database as mutated so far,
  since a thrown error does not roll back writes already awaited (only the
  per-group `$transaction` is all-or-nothing, which we model by applying a
  group's writes as one step or not at all).
-/
import Mathlib

set_option maxRecDepth 8000

deriving instance DecidableEq for Except

namespace NeoMart

/-- A cart line as stored in the user's serialized cart:
`{productId, quantity, price}` (price captured when added to cart). -/
structure CartItem where
  productId : String
  quantity  : Nat
  price     : ℚ
  deriving Repr, DecidableEq

/-- The serialized cart value: `{items, total}`. -/
structure Cart where
  items : List CartItem
  total : ℚ
  deriving Repr, DecidableEq

/-- The fields of Product that `createOrder` selects:
`{storeId, price, inStock, name}`. -/
structure Product where
  storeId : String
  price   : ℚ
  inStock : Bool
  name    : String
  deriving Repr, DecidableEq

/-- Coupon discount type enum. -/
inductive DiscountType where
  | PERCENTAGE
  | FIXED
  deriving Repr, DecidableEq

/-- The Coupon row. `usageLimit = 0` means unlimited. -/
structure Coupon where
  id           : String
  code         : String
  discount     : ℚ
  discountType : DiscountType
  isActive     : Bool
  expiresAt    : Int
  usageLimit   : Int
  usageCount   : Int
  deriving Repr, DecidableEq

/-- Prisma OrderStatus enum. -/
inductive OrderStatus where
  | PENDING
  | CONFIRMED
  | PROCESSING
  | SHIPPED
  | DELIVERED
  | CANCELLED
  | REFUNDED
  deriving Repr, DecidableEq

/-- The Order row as created by `createOrder` (ids are synthetic naturals). -/
structure Order where
  id            : Nat
  orderNumber   : String
  total         : ℚ
  userId        : String
  storeId       : String
  paymentMethod : String
  isCouponUsed  : Bool
  coupon        : Option String
  status        : OrderStatus
  deriving Repr, DecidableEq

/-- The OrderItem row. -/
structure OrderItem where
  orderId   : Nat
  productId : String
  quantity  : Nat
  price     : ℚ
  deriving Repr, DecidableEq

/-- The database state visible to the order service.
`users` maps userId to the nullable serialized cart field;
`products` maps productId to the selected Product columns;
`stores` maps storeId to the owning user's id (the only store column the
order service reads). Referential integrity of the real schema is assumed
where theorems need it. -/
structure DB where
  users       : List (String × Option Cart)
  products    : List (String × Product)
  stores      : List (String × String)
  coupons     : List Coupon
  orders      : List Order
  orderItems  : List OrderItem
  nextOrderId : Nat
  deriving Repr, DecidableEq

/-- `prisma.user.findUnique({where:{id}, select:{cart}})`. -/
def findUser (db : DB) (uid : String) : Option (Option Cart) :=
  (db.users.find? (fun e => e.1 = uid)).map Prod.snd

/-- `prisma.product.findUnique({where:{id}, select:{storeId,price,inStock,name}})`. -/
def findProduct (db : DB) (pid : String) : Option Product :=
  (db.products.find? (fun e => e.1 = pid)).map Prod.snd

/-- `prisma.coupon.findUnique({where:{code}})` (code is a unique column). -/
def findCoupon (db : DB) (code : String) : Option Coupon :=
  db.coupons.find? (fun c => c.code = code)

/-- `prisma.store.findUnique`-style read of the owning user of a store. -/
def findStoreOwner (db : DB) (sid : String) : Option String :=
  (db.stores.find? (fun e => e.1 = sid)).map Prod.snd

/-- `prisma.order.findUnique({where:{id}})`. -/
def findOrder (db : DB) (oid : Nat) : Option Order :=
  db.orders.find? (fun o => o.id = oid)

/-- `prisma.coupon.update({where:{id}, data:{usageCount:{increment:1}}})`. -/
def incCoupon (db : DB) (cid : String) : DB :=
  { db with
    coupons := db.coupons.map fun c =>
      if c.id = cid then { c with usageCount := c.usageCount + 1 } else c }

/-- `prisma.user.update({where:{id}, data:{cart}})`. -/
def setUserCart (db : DB) (uid : String) (cart : Option Cart) : DB :=
  { db with
    users := db.users.map fun e =>
      if e.1 = uid then (e.1, cart) else e }

/-- `prisma.order.update({where:{id}, data:{status}})`. -/
def setOrderStatus (db : DB) (oid : Nat) (st : OrderStatus) : DB :=
  { db with
    orders := db.orders.map fun o =>
      if o.id = oid then { o with status := st } else o }

/-- Error classes of `createError(message, code)`:
404 → notFound, 400 → invalidState, 403 → accessDenied; `dbFail` stands
for an error thrown by the store layer inside a `$transaction` (insert
failure), which aborts the transaction and propagates. -/
inductive OrderError where
  | notFound     (msg : String)
  | invalidState (msg : String)
  | accessDenied (msg : String)
  | dbFail
  deriving Repr, DecidableEq

/-- `createOrder`'s return value: `orders.length === 1 ? orders[0] : orders`. -/
inductive OrderResult where
  | one  (o : Order)
  | many (os : List Order)
  deriving Repr, DecidableEq

/-- Inputs that don't live in the database: the clock read by `new Date()`,
the request body fields the service uses, and the order-number entropy
(`Date.now()` string and `Math.random()` suffix drawn when processing the
i-th store group). -/
structure Env where
  now           : Int
  paymentMethod : String
  couponCode    : Option String
  gen           : Nat → String × String

/-- `` `ORD-${Date.now()}-${Math.random().toString(36).substr(2, 9)}` ``. -/
def mkOrderNumber (t r : String) : String :=
  "ORD-" ++ t ++ "-" ++ r

/-- The `Map.has / Map.set / Map.get(...).push` grouping step: append `it`
to the group of `sid`, creating the group at the end (JS Map iteration
order is key-insertion order). -/
def groupInsert (gs : List (String × List CartItem)) (sid : String)
    (it : CartItem) : List (String × List CartItem) :=
  match gs with
  | [] => [(sid, [it])]
  | (s, its) :: rest =>
      if s = sid then (s, its ++ [it]) :: rest
      else (s, its) :: groupInsert rest sid it

/-- The validation-and-grouping loop over `cart.items` (lines 155–180):
fetch the live product, fail on missing / out-of-stock / price-changed,
otherwise group by the product's `storeId`. -/
def validateAndGroup (db : DB) :
    List CartItem → List (String × List CartItem) →
    Except OrderError (List (String × List CartItem))
  | [], gs => .ok gs
  | it :: rest, gs =>
    match findProduct db it.productId with
    | none => .error (.notFound ("Product " ++ it.productId ++ " not found"))
    | some p =>
      if p.inStock = false then
        .error (.invalidState ("Product " ++ p.name ++ " is out of stock"))
      else if p.price ≠ it.price then
        .error (.invalidState ("Price changed for product " ++ p.name))
      else
        validateAndGroup db rest (groupInsert gs p.storeId it)

/-- `storeItems.reduce((sum, item) => sum + item.price * item.quantity, 0)`. -/
def groupSubtotal (its : List CartItem) : ℚ :=
  its.foldl (fun sum it => sum + it.price * (it.quantity : ℚ)) 0

/-- Lines 203–207: percentage discount multiplies the remaining fraction,
fixed discount subtracts and floors at zero. -/
def discountedTotal (dt : DiscountType) (discount storeTotal : ℚ) : ℚ :=
  if dt = DiscountType.PERCENTAGE then storeTotal * (1 - discount / 100)
  else max 0 (storeTotal - discount)

/-- Lines 190–217: coupon lookup and application for one store group.
Returns the (possibly incremented) database, the final total and the
`couponUsed` flag, or throws when the usage limit is exhausted. -/
def applyCouponStep (env : Env) (db : DB) (storeTotal : ℚ) :
    Except OrderError (DB × ℚ × Bool) :=
  match env.couponCode with
  | none => .ok (db, storeTotal, false)
  | some code =>
    match findCoupon db code with
    | none => .ok (db, storeTotal, false)
    | some c =>
      if c.isActive = true ∧ env.now < c.expiresAt then
        if c.usageLimit > 0 ∧ c.usageCount ≥ c.usageLimit then
          .error (.invalidState "Coupon usage limit exceeded")
        else
          .ok (incCoupon db c.id,
               discountedTotal c.discountType c.discount storeTotal, true)
      else .ok (db, storeTotal, false)

/-- The body of `prisma.$transaction` for one store group (lines 223–256):
insert the Order row, then one OrderItem row per cart line (stock update is
commented out in the source). Applied as one atomic step. -/
def runGroupTx (env : Env) (uid sid : String) (orderNumber : String)
    (finalTotal : ℚ) (couponUsed : Bool) (its : List CartItem) (db : DB) :
    DB × Order :=
  let oid := db.nextOrderId
  let o : Order :=
    { id := oid
      orderNumber := orderNumber
      total := finalTotal
      userId := uid
      storeId := sid
      paymentMethod := env.paymentMethod
      isCouponUsed := couponUsed
      coupon := if couponUsed then env.couponCode else none
      status := .PENDING }
  let rows := its.map (fun it =>
    ({ orderId := oid, productId := it.productId,
       quantity := it.quantity, price := it.price } : OrderItem))
  ({ db with
      orders := db.orders ++ [o]
      orderItems := db.orderItems ++ rows
      nextOrderId := oid + 1 }, o)

/-- The per-store loop of `createOrder` (lines 185–259). `oracle i = true`
models the store layer aborting the i-th group's `$transaction`: the
group's writes do not apply, but the coupon increment performed before the
transaction persists, and the error propagates. -/
def processGroups (env : Env) (oracle : Nat → Bool) (uid : String) :
    List (String × List CartItem) → Nat → DB → List Order →
    DB × Except OrderError (List Order)
  | [], _, db, acc => (db, .ok acc)
  | (sid, its) :: rest, i, db, acc =>
    let storeTotal := groupSubtotal its
    match applyCouponStep env db storeTotal with
    | .error e => (db, .error e)
    | .ok (db1, finalTotal, couponUsed) =>
      let tr := env.gen i
      let orderNumber := mkOrderNumber tr.1 tr.2
      if oracle i then (db1, .error .dbFail)
      else
        let res := runGroupTx env uid sid orderNumber finalTotal couponUsed its db1
        processGroups env oracle uid rest (i + 1) res.1 (acc ++ [res.2])

/-- `OrderService.createOrder` (lines 134–275) with an explicit transaction
failure oracle. Every error path returns the database as already mutated
(nothing outside a group transaction is rolled back). -/
def createOrderF (env : Env) (oracle : Nat → Bool) (uid : String) (db : DB) :
    DB × Except OrderError OrderResult :=
  match findUser db uid with
  | none => (db, .error (.notFound "User not found"))
  | some cartField =>
    let cart := cartField.getD { items := [], total := 0 }
    if cart.items.length = 0 then (db, .error (.invalidState "Cart is empty"))
    else
      match validateAndGroup db cart.items [] with
      | .error e => (db, .error e)
      | .ok gs =>
        match processGroups env oracle uid gs 0 db [] with
        | (db1, .error e) => (db1, .error e)
        | (db1, .ok os) =>
          let db2 := setUserCart db1 uid (some { items := [], total := 0 })
          (db2, .ok (match os with
                     | [o] => .one o
                     | _ => .many os))

/-- `OrderService.createOrder` on a store layer whose inserts succeed. -/
def createOrder (env : Env) (uid : String) (db : DB) :
    DB × Except OrderError OrderResult :=
  createOrderF env (fun _ => false) uid db

/-- The `validTransitions` table of `updateOrderStatus` (lines 491–499). -/
def validTransitions : OrderStatus → List OrderStatus
  | .PENDING    => [.CONFIRMED, .CANCELLED]
  | .CONFIRMED  => [.PROCESSING, .CANCELLED]
  | .PROCESSING => [.SHIPPED, .CANCELLED]
  | .SHIPPED    => [.DELIVERED]
  | .DELIVERED  => [.REFUNDED]
  | .CANCELLED  => []
  | .REFUNDED   => []

/-- Enum value names, as interpolated into error messages. -/
def statusToString : OrderStatus → String
  | .PENDING    => "PENDING"
  | .CONFIRMED  => "CONFIRMED"
  | .PROCESSING => "PROCESSING"
  | .SHIPPED    => "SHIPPED"
  | .DELIVERED  => "DELIVERED"
  | .CANCELLED  => "CANCELLED"
  | .REFUNDED   => "REFUNDED"

/-- `OrderService.updateOrderStatus` (lines 470–532): order must exist, the
caller must be the owning store's user, and the requested status must be in
the transition table for the current status. The `include: {store}` read of
the owning user is `findStoreOwner` (referential integrity makes it
`some`). -/
def updateOrderStatus (db : DB) (oid : Nat) (status : OrderStatus)
    (uid : String) : DB × Except OrderError Order :=
  match findOrder db oid with
  | none => (db, .error (.notFound "Order not found"))
  | some o =>
    if (findStoreOwner db o.storeId).getD "" ≠ uid then
      (db, .error (.accessDenied "Access denied"))
    else if status ∈ validTransitions o.status then
      (setOrderStatus db oid status, .ok { o with status := status })
    else
      (db, .error (.invalidState
        ("Cannot change status from " ++ statusToString o.status ++
         " to " ++ statusToString status)))

/-- `OrderService.cancelOrder` (lines 534–573): the buyer or the owning
store's user may cancel, and only from PENDING, CONFIRMED or PROCESSING. -/
def cancelOrder (db : DB) (oid : Nat) (uid : String) :
    DB × Except OrderError Order :=
  match findOrder db oid with
  | none => (db, .error (.notFound "Order not found"))
  | some o =>
    if ¬(o.userId = uid ∨ (findStoreOwner db o.storeId).getD "" = uid) then
      (db, .error (.accessDenied "Access denied"))
    else if ¬(o.status ∈ [OrderStatus.PENDING, .CONFIRMED, .PROCESSING]) then
      (db, .error (.invalidState "Order cannot be cancelled at this stage"))
    else
      (setOrderStatus db oid .CANCELLED, .ok { o with status := .CANCELLED })

/-- `OrderService.refundOrder` (lines 626–652): only DELIVERED orders can
be refunded. -/
def refundOrder (db : DB) (oid : Nat) : DB × Except OrderError Order :=
  match findOrder db oid with
  | none => (db, .error (.notFound "Order not found"))
  | some o =>
    if o.status ≠ OrderStatus.DELIVERED then
      (db, .error (.invalidState "Only delivered orders can be refunded"))
    else
      (setOrderStatus db oid .REFUNDED, .ok { o with status := .REFUNDED })

/-- Prisma Role enum. -/
inductive Role where
  | USER
  | SELLER
  | ADMIN
  | FOUNDER
  deriving Repr, DecidableEq

/-- The authenticated caller attached by the `authenticate` middleware. -/
structure Caller where
  id   : String
  role : Role
  deriving Repr, DecidableEq

/-- The `PUT /api/orders/:id/status` pipeline: `authenticate`,
`validateParams`, `validateBody`, then the controller calls
`updateOrderStatus(id, status, req.user.id)` — no role-based middleware is
attached to this route, so the caller's role never reaches the check. -/
def updateOrderStatusRoute (db : DB) (caller : Caller) (oid : Nat)
    (status : OrderStatus) : DB × Except OrderError Order :=
  updateOrderStatus db oid status caller.id

/-! ### Statement vocabulary

Definitions used to phrase the theorems: per-item validity, the store a
cart line resolves to, the coupon the loop would apply against a given
database, and the orders/rows a successful run is expected to insert. -/

/-- The empty cart written back on success. -/
def emptyCart : Cart := { items := [], total := 0 }

/-- `orders.length === 1 ? orders[0] : orders` (line 270), as a function of
the accumulated list. -/
def resultOf (os : List Order) : OrderResult :=
  match os with
  | [o] => .one o
  | _ => .many os

/-- An item passes the three per-item checks of lines 155–171. -/
def itemValidB (db : DB) (it : CartItem) : Bool :=
  match findProduct db it.productId with
  | none => false
  | some p => p.inStock && decide (p.price = it.price)

/-- The owning store of a cart line's product (defaulting to `""` when the
product is missing, which validity rules out). -/
def storeOfD (db : DB) (it : CartItem) : String :=
  ((findProduct db it.productId).map Product.storeId).getD ""

/-- The grouping of lines 152–180 as a fold (what `validateAndGroup`
computes when every item is valid). -/
def groupAll (db : DB) (items : List CartItem)
    (gs : List (String × List CartItem)) : List (String × List CartItem) :=
  items.foldl (fun a it => groupInsert a (storeOfD db it) it) gs

/-- The items recorded under a store key. -/
def lookupGroup (gs : List (String × List CartItem)) (s : String) :
    List CartItem :=
  ((gs.find? (fun e => e.1 = s)).map Prod.snd).getD []

/-- The coupon the loop applies (found by code, active, unexpired) against
a given database state, if any. -/
def appliedCoupon (env : Env) (db : DB) : Option Coupon :=
  match env.couponCode with
  | none => none
  | some code =>
    match findCoupon db code with
    | none => none
    | some c =>
      if c.isActive = true ∧ env.now < c.expiresAt then some c else none

/-- The coupon, if applicable at all, has room for `n` further uses. -/
def couponAvailB (env : Env) (db : DB) (n : Nat) : Bool :=
  match appliedCoupon env db with
  | none => true
  | some c =>
    decide (c.usageLimit ≤ 0) || decide (c.usageCount + n ≤ c.usageLimit)

/-- The group total after the optional discount of lines 202–207. -/
def expectedTotal (env : Env) (db : DB) (s : ℚ) : ℚ :=
  match appliedCoupon env db with
  | none => s
  | some c => discountedTotal c.discountType c.discount s

/-- The Order row a successful run inserts for the group `g`, drawing its
number from call index `gi` and its id from the synthetic counter. -/
def mkExpOrder (env : Env) (db : DB) (uid : String) (oid gi : Nat)
    (g : String × List CartItem) : Order :=
  { id := oid
    orderNumber := mkOrderNumber (env.gen gi).1 (env.gen gi).2
    total := expectedTotal env db (groupSubtotal g.2)
    userId := uid
    storeId := g.1
    paymentMethod := env.paymentMethod
    isCouponUsed := (appliedCoupon env db).isSome
    coupon := if (appliedCoupon env db).isSome then env.couponCode else none
    status := .PENDING }

/-- The Order rows a successful run starting at counter `base` and call
index `i` inserts for the group list `gs`. -/
def expOrders (env : Env) (db : DB) (uid : String) :
    Nat → Nat → List (String × List CartItem) → List Order
  | _, _, [] => []
  | base, i, g :: gs =>
    mkExpOrder env db uid base i g :: expOrders env db uid (base + 1) (i + 1) gs

/-- The OrderItem rows inserted for the group list `gs`. -/
def expRows : Nat → List (String × List CartItem) → List OrderItem
  | _, [] => []
  | base, g :: gs =>
    g.2.map (fun it =>
      ({ orderId := base, productId := it.productId,
         quantity := it.quantity, price := it.price } : OrderItem)) ++
    expRows (base + 1) gs

/-- Coupon invariant of the spec: usage never exceeds a positive limit. -/
def couponInv (cs : List Coupon) : Prop :=
  ∀ c ∈ cs, c.usageLimit > 0 → c.usageCount ≤ c.usageLimit

/-- The error the per-item validation raises for an invalid item (lines
161–171): 404 for a missing product, 400 otherwise. -/
def itemError (db : DB) (it : CartItem) : OrderError :=
  match findProduct db it.productId with
  | none => .notFound ("Product " ++ it.productId ++ " not found")
  | some p =>
    if p.inStock = false then
      .invalidState ("Product " ++ p.name ++ " is out of stock")
    else
      .invalidState ("Price changed for product " ++ p.name)

/-! ### Concrete fixtures

Small database states used by witnesses and counterexamples. `dbA` is the
spec's §8 multi-vendor scenario: product A (store S1, price 100) and
product B (store S2, price 50) in u1's cart, coupon SAVE10 (PERCENTAGE,
10, unlimited). -/

def prodA : Product := { storeId := "S1", price := 100, inStock := true, name := "ProductA" }

def prodB : Product := { storeId := "S2", price := 50, inStock := true, name := "ProductB" }

def cartAB : Cart :=
  { items := [{ productId := "A", quantity := 2, price := 100 },
              { productId := "B", quantity := 1, price := 50 }]
    total := 250 }

def save10 : Coupon :=
  { id := "c1", code := "SAVE10", discount := 10,
    discountType := .PERCENTAGE, isActive := true, expiresAt := 1000,
    usageLimit := 0, usageCount := 0 }

def dbA : DB :=
  { users := [("u1", some cartAB)]
    products := [("A", prodA), ("B", prodB)]
    stores := [("S1", "seller1"), ("S2", "seller2")]
    coupons := [save10]
    orders := []
    orderItems := []
    nextOrderId := 0 }

def envA : Env :=
  { now := 0, paymentMethod := "COD", couponCode := some "SAVE10",
    gen := fun i => ("t" ++ toString i, "r" ++ toString i) }

/-- `dbA` with SAVE10 exhausted: limit 1, already used once. -/
def dbExhausted : DB :=
  { dbA with coupons := [{ save10 with usageLimit := 1, usageCount := 1 }] }

/-- `dbA` with SAVE10 expired relative to `envA.now = 0`. -/
def dbExpired : DB :=
  { dbA with coupons := [{ save10 with expiresAt := -5 }] }

/-- `dbA` with product B out of stock. -/
def dbOutOfStock : DB :=
  { dbA with products := [("A", prodA), ("B", { prodB with inStock := false })] }

/-- `envA` with no coupon and constant order-number entropy: both the
timestamp and the random suffix repeat across groups, as they can in the
source (same `Date.now()` millisecond, colliding `Math.random()`). -/
def envConst : Env :=
  { now := 0, paymentMethod := "COD", couponCode := none,
    gen := fun _ => ("t", "r") }

/-- `envA` with entropy whose draws are pairwise distinct across calls. -/
def envW : Env :=
  { now := 0, paymentMethod := "COD", couponCode := some "SAVE10",
    gen := fun i => (String.mk (List.replicate i 'a'), "r") }

/-- The two orders a no-coupon checkout of `dbA` creates when the entropy
source returns the same draw for both groups. -/
def c8order1 : Order :=
  { id := 0, orderNumber := "ORD-t-r", total := 200, userId := "u1",
    storeId := "S1", paymentMethod := "COD", isCouponUsed := false,
    coupon := none, status := .PENDING }

def c8order2 : Order :=
  { id := 1, orderNumber := "ORD-t-r", total := 50, userId := "u1",
    storeId := "S2", paymentMethod := "COD", isCouponUsed := false,
    coupon := none, status := .PENDING }

/-- The two orders of the spec's §8 multi-vendor SAVE10 scenario. -/
def c7order1 : Order :=
  { id := 0, orderNumber := "ORD-t0-r0", total := 180, userId := "u1",
    storeId := "S1", paymentMethod := "COD", isCouponUsed := true,
    coupon := some "SAVE10", status := .PENDING }

def c7order2 : Order :=
  { id := 1, orderNumber := "ORD-t1-r1", total := 45, userId := "u1",
    storeId := "S2", paymentMethod := "COD", isCouponUsed := true,
    coupon := some "SAVE10", status := .PENDING }

/-- A database with one existing order, for the status-transition claims. -/
def dbOrder (st : OrderStatus) : DB :=
  { users := [("u1", none)]
    products := []
    stores := [("S1", "seller1")]
    coupons := []
    orders := [{ id := 0, orderNumber := "ORD-x-y", total := 10,
                 userId := "u1", storeId := "S1", paymentMethod := "COD",
                 isCouponUsed := false, coupon := none, status := st }]
    orderItems := []
    nextOrderId := 1 }

/-! ### Grouping lemmas

How the `Map`-based grouping of lines 152–180 relates keys and contents to
the cart: keys are the distinct stores in first-occurrence order, and each
key's group is the subsequence of cart items owned by that store. -/

lemma groupAll_nil (db : DB) (gs : List (String × List CartItem)) :
    groupAll db [] gs = gs := rfl

lemma groupAll_cons (db : DB) (it : CartItem) (items : List CartItem)
    (gs : List (String × List CartItem)) :
    groupAll db (it :: items) gs =
      groupAll db items (groupInsert gs (storeOfD db it) it) := rfl

lemma groupInsert_keys (gs : List (String × List CartItem)) (sid : String)
    (it : CartItem) :
    (groupInsert gs sid it).map Prod.fst =
      if sid ∈ gs.map Prod.fst then gs.map Prod.fst
      else gs.map Prod.fst ++ [sid] := by
  induction gs with
  | nil => simp [groupInsert]
  | cons g rest ih =>
    obtain ⟨s, its⟩ := g
    simp only [groupInsert]
    by_cases h : s = sid
    · subst h
      simp
    · simp only [if_neg h, List.map_cons, ih, List.mem_cons]
      by_cases h2 : sid ∈ rest.map Prod.fst
      · simp [h2, Ne.symm h]
      · simp [h2, Ne.symm h]

lemma lookupGroup_nil (s : String) : lookupGroup [] s = [] := rfl

lemma lookupGroup_groupInsert (gs : List (String × List CartItem))
    (sid s : String) (it : CartItem) :
    lookupGroup (groupInsert gs sid it) s =
      if s = sid then lookupGroup gs s ++ [it] else lookupGroup gs s := by
  induction gs with
  | nil =>
    by_cases h : s = sid <;>
      simp [groupInsert, lookupGroup, List.find?, h, Ne.symm]
  | cons g rest ih =>
    obtain ⟨s0, its⟩ := g
    simp only [groupInsert]
    by_cases h0 : s0 = sid
    · subst h0
      rw [if_pos rfl]
      by_cases h : s = s0
      · subst h
        simp [lookupGroup, List.find?]
      · simp [lookupGroup, List.find?, Ne.symm h, h]
    · rw [if_neg h0]
      by_cases h : s = s0
      · subst h
        simp [lookupGroup, List.find?, h0]
      · have hfind :
            ∀ tail : List (String × List CartItem),
              lookupGroup ((s0, its) :: tail) s = lookupGroup tail s := by
          intro tail
          simp [lookupGroup, List.find?, Ne.symm h, h]
        rw [hfind, hfind, ih]

lemma groupAll_keys_mem (db : DB) :
    ∀ (items : List CartItem) (gs : List (String × List CartItem))
      (s : String),
      s ∈ (groupAll db items gs).map Prod.fst ↔
        s ∈ gs.map Prod.fst ∨ ∃ it ∈ items, storeOfD db it = s := by
  intro items
  induction items with
  | nil => simp [groupAll]
  | cons it rest ih =>
    intro gs s
    rw [groupAll_cons, ih, groupInsert_keys]
    by_cases h : storeOfD db it ∈ gs.map Prod.fst
    · rw [if_pos h]
      constructor
      · rintro (hs | ⟨x, hx, hsx⟩)
        · exact Or.inl hs
        · exact Or.inr ⟨x, List.mem_cons_of_mem _ hx, hsx⟩
      · rintro (hs | ⟨x, hx, hsx⟩)
        · exact Or.inl hs
        · rcases List.mem_cons.mp hx with rfl | hx2
          · exact Or.inl (hsx ▸ h)
          · exact Or.inr ⟨x, hx2, hsx⟩
    · rw [if_neg h]
      constructor
      · rintro (hs | ⟨x, hx, hsx⟩)
        · rcases List.mem_append.mp hs with hs2 | hs2
          · exact Or.inl hs2
          · exact Or.inr
              ⟨it, List.mem_cons_self _ _, (List.mem_singleton.mp hs2).symm⟩
        · exact Or.inr ⟨x, List.mem_cons_of_mem _ hx, hsx⟩
      · rintro (hs | ⟨x, hx, hsx⟩)
        · exact Or.inl (List.mem_append.mpr (Or.inl hs))
        · rcases List.mem_cons.mp hx with rfl | hx2
          · exact Or.inl (List.mem_append.mpr (Or.inr (by simp [hsx])))
          · exact Or.inr ⟨x, hx2, hsx⟩

lemma groupAll_keys_nodup (db : DB) :
    ∀ (items : List CartItem) (gs : List (String × List CartItem)),
      ((gs.map Prod.fst).Nodup) →
      ((groupAll db items gs).map Prod.fst).Nodup := by
  intro items
  induction items with
  | nil => intro gs h; exact h
  | cons it rest ih =>
    intro gs h
    rw [groupAll_cons]
    apply ih
    rw [groupInsert_keys]
    by_cases hmem : storeOfD db it ∈ gs.map Prod.fst
    · simpa [hmem] using h
    · simp only [if_neg hmem]
      exact h.append (List.nodup_singleton _)
        (by simp [List.disjoint_singleton, hmem])

lemma groupAll_lookup (db : DB) :
    ∀ (items : List CartItem) (gs : List (String × List CartItem))
      (s : String),
      lookupGroup (groupAll db items gs) s =
        lookupGroup gs s ++ items.filter (fun it => storeOfD db it = s) := by
  intro items
  induction items with
  | nil => simp [groupAll]
  | cons it rest ih =>
    intro gs s
    rw [groupAll_cons, ih, lookupGroup_groupInsert, List.filter_cons]
    by_cases h : s = storeOfD db it
    · simp [if_pos h, h]
    · simp [if_neg h, Ne.symm h]

lemma lookupGroup_get :
    ∀ (gs : List (String × List CartItem)),
      ((gs.map Prod.fst).Nodup) →
      ∀ (k : Nat) (hk : k < gs.length),
        lookupGroup gs (gs.get ⟨k, hk⟩).1 = (gs.get ⟨k, hk⟩).2 := by
  intro gs
  induction gs with
  | nil => intro _ k hk; exact absurd hk (by simp)
  | cons g rest ih =>
    intro hn k hk
    have hn2 : ((rest.map Prod.fst).Nodup) := (List.nodup_cons.mp hn).2
    have hhead : g.1 ∉ rest.map Prod.fst := (List.nodup_cons.mp hn).1
    cases k with
    | zero => simp [lookupGroup, List.find?]
    | succ k =>
      have hk2 : k < rest.length := by simpa using hk
      have hget : (g :: rest).get ⟨k + 1, hk⟩ = rest.get ⟨k, hk2⟩ := rfl
      rw [hget]
      generalize hp : rest.get ⟨k, hk2⟩ = p
      have hmem : p.1 ∈ rest.map Prod.fst := by
        rw [← hp]
        exact List.mem_map_of_mem _ (rest.get_mem _ _)
      have hne : ¬(g.1 = p.1) := by
        intro hcontra
        exact hhead (hcontra ▸ hmem)
      have hstep : lookupGroup (g :: rest) p.1 = lookupGroup rest p.1 := by
        simp [lookupGroup, List.find?, hne]
      rw [hstep, ← hp]
      exact ih hn2 k hk2

lemma groupInsert_ne_nil (gs : List (String × List CartItem)) (sid : String)
    (it : CartItem) : groupInsert gs sid it ≠ [] := by
  cases gs with
  | nil => simp [groupInsert]
  | cons g rest =>
    obtain ⟨s, its⟩ := g
    simp only [groupInsert]
    by_cases h : s = sid <;> simp [h]

lemma groupAll_ne_nil (db : DB) :
    ∀ (items : List CartItem) (gs : List (String × List CartItem)),
      gs ≠ [] → groupAll db items gs ≠ [] := by
  intro items
  induction items with
  | nil => intro gs h; exact h
  | cons it rest ih =>
    intro gs _
    rw [groupAll_cons]
    exact ih _ (groupInsert_ne_nil _ _ _)

lemma groupAll_of_ne_nil (db : DB) (items : List CartItem)
    (h : items ≠ []) : groupAll db items [] ≠ [] := by
  cases items with
  | nil => exact absurd rfl h
  | cons it rest =>
    rw [groupAll_cons]
    exact groupAll_ne_nil db rest _ (groupInsert_ne_nil _ _ _)

/-! ### Validation lemmas

The per-item loop succeeds exactly on all-valid carts, producing the
grouping, and raises the first invalid item's error otherwise. -/

lemma validateAndGroup_ok (db : DB) :
    ∀ (items : List CartItem) (gs : List (String × List CartItem)),
      (∀ it ∈ items, itemValidB db it = true) →
      validateAndGroup db items gs = .ok (groupAll db items gs) := by
  intro items
  induction items with
  | nil => intro gs _; rfl
  | cons it rest ih =>
    intro gs hv
    cases hp : findProduct db it.productId with
    | none =>
      exfalso
      have h0 := hv it (List.mem_cons_self _ _)
      simp [itemValidB, hp] at h0
    | some p =>
      have h0 := hv it (List.mem_cons_self _ _)
      simp only [itemValidB, hp, Bool.and_eq_true, decide_eq_true_eq] at h0
      obtain ⟨hstock, hprice⟩ := h0
      have hrec := ih (groupInsert gs p.storeId it)
        (fun x hx => hv x (List.mem_cons_of_mem _ hx))
      calc validateAndGroup db (it :: rest) gs
          = validateAndGroup db rest (groupInsert gs p.storeId it) := by
            simp [validateAndGroup, hp, hstock, hprice]
        _ = .ok (groupAll db rest (groupInsert gs p.storeId it)) := hrec
        _ = .ok (groupAll db (it :: rest) gs) := by
            rw [groupAll_cons]
            have hst : storeOfD db it = p.storeId := by simp [storeOfD, hp]
            rw [hst]

lemma validateAndGroup_error (db : DB) :
    ∀ (pre : List CartItem) (it : CartItem) (post : List CartItem)
      (gs : List (String × List CartItem)),
      (∀ x ∈ pre, itemValidB db x = true) →
      itemValidB db it = false →
      validateAndGroup db (pre ++ it :: post) gs =
        .error (itemError db it) := by
  intro pre
  induction pre with
  | nil =>
    intro it post gs _ hbad
    rw [List.nil_append]
    cases hp : findProduct db it.productId with
    | none =>
      simp [validateAndGroup, itemError, hp]
    | some p =>
      simp only [itemValidB, hp] at hbad
      by_cases hstock : p.inStock = false
      · simp [validateAndGroup, itemError, hp, hstock]
      · have hstock2 : p.inStock = true := by
          cases hb : p.inStock
          · exact absurd hb hstock
          · rfl
        have hprice : ¬(p.price = it.price) := by
          intro hpr
          rw [hstock2, hpr] at hbad
          simp at hbad
        simp [validateAndGroup, itemError, hp, hstock2, hprice]
  | cons x pre2 ih =>
    intro it post gs hv hbad
    cases hp : findProduct db x.productId with
    | none =>
      exfalso
      have hx := hv x (List.mem_cons_self _ _)
      simp [itemValidB, hp] at hx
    | some p =>
      have hx := hv x (List.mem_cons_self _ _)
      simp only [itemValidB, hp, Bool.and_eq_true, decide_eq_true_eq] at hx
      obtain ⟨hstock, hprice⟩ := hx
      have hstep : validateAndGroup db ((x :: pre2) ++ it :: post) gs =
          validateAndGroup db (pre2 ++ it :: post)
            (groupInsert gs p.storeId x) := by
        simp [validateAndGroup, hp, hstock, hprice]
      rw [hstep]
      exact ih it post _ (fun y hy => hv y (List.mem_cons_of_mem _ hy)) hbad

/-! ### Coupon lemmas

How the per-group coupon lookup (re-read from the database each group)
interacts with the atomic usage increment. -/

lemma findCoupon_code (db : DB) (code : String) (c : Coupon)
    (h : findCoupon db code = some c) : c.code = code := by
  have h2 : db.coupons.find? (fun x => x.code = code) = some c := h
  have := List.find?_some h2
  simpa using this

lemma findCoupon_mem (db : DB) (code : String) (c : Coupon)
    (h : findCoupon db code = some c) : c ∈ db.coupons := by
  have h2 : db.coupons.find? (fun x => x.code = code) = some c := h
  exact List.mem_of_find?_eq_some h2

lemma find?_code_inc :
    ∀ (cs : List Coupon) (code : String) (c : Coupon),
      cs.find? (fun x => x.code = code) = some c →
      (cs.map (fun x =>
          if x.id = c.id then { x with usageCount := x.usageCount + 1 }
          else x)).find? (fun x => x.code = code) =
        some { c with usageCount := c.usageCount + 1 } := by
  intro cs
  induction cs with
  | nil => intro code c h; simp [List.find?] at h
  | cons a rest ih =>
    intro code c h
    by_cases ha : a.code = code
    · have hac : a = c := by
        have : some a = some c := by
          rw [← h]
          simp [List.find?, ha]
        exact Option.some.inj this
      subst hac
      simp [List.find?, ha]
    · have hrec : rest.find? (fun x => x.code = code) = some c := by
        simpa [List.find?, ha] using h
      have hres := ih code c hrec
      by_cases hid : a.id = c.id
      · simp [List.find?, ha, hid, hres]
      · simp [List.find?, ha, hid, hres]

lemma findCoupon_incCoupon (db : DB) (code : String) (c : Coupon)
    (h : findCoupon db code = some c) :
    findCoupon (incCoupon db c.id) code =
      some { c with usageCount := c.usageCount + 1 } := by
  have h2 : db.coupons.find? (fun x => x.code = code) = some c := h
  simpa [findCoupon, incCoupon] using find?_code_inc db.coupons code c h2

lemma appliedCoupon_congr (env : Env) (db1 db2 : DB)
    (h : db1.coupons = db2.coupons) :
    appliedCoupon env db1 = appliedCoupon env db2 := by
  simp [appliedCoupon, findCoupon, h]

lemma appliedCoupon_inc (env : Env) (db : DB) (c : Coupon)
    (h : appliedCoupon env db = some c) :
    appliedCoupon env (incCoupon db c.id) =
      some { c with usageCount := c.usageCount + 1 } := by
  cases hcc : env.couponCode with
  | none => simp [appliedCoupon, hcc] at h
  | some code =>
    simp only [appliedCoupon, hcc] at h ⊢
    cases hf : findCoupon db code with
    | none => simp [hf] at h
    | some c0 =>
      simp only [hf] at h
      by_cases hcond : c0.isActive = true ∧ env.now < c0.expiresAt
      · rw [if_pos hcond] at h
        have hc0 : c0 = c := Option.some.inj h
        subst hc0
        rw [findCoupon_incCoupon db code c0 hf]
        simp [hcond.1, hcond.2]
      · rw [if_neg hcond] at h
        exact absurd h (by simp)

lemma applyCouponStep_none (env : Env) (db : DB) (S : ℚ)
    (h : appliedCoupon env db = none) :
    applyCouponStep env db S = .ok (db, S, false) := by
  cases hcc : env.couponCode with
  | none => simp [applyCouponStep, hcc]
  | some code =>
    simp only [appliedCoupon, hcc] at h
    simp only [applyCouponStep, hcc]
    cases hf : findCoupon db code with
    | none => simp [hf]
    | some c =>
      simp only [hf] at h
      by_cases hcond : c.isActive = true ∧ env.now < c.expiresAt
      · rw [if_pos hcond] at h
        exact absurd h (by simp)
      · simp [hf, hcond]

lemma applyCouponStep_some (env : Env) (db : DB) (S : ℚ) (c : Coupon)
    (h : appliedCoupon env db = some c)
    (havail : c.usageLimit ≤ 0 ∨ c.usageCount < c.usageLimit) :
    applyCouponStep env db S =
      .ok (incCoupon db c.id,
           discountedTotal c.discountType c.discount S, true) := by
  cases hcc : env.couponCode with
  | none => simp [appliedCoupon, hcc] at h
  | some code =>
    simp only [appliedCoupon, hcc] at h
    simp only [applyCouponStep, hcc]
    cases hf : findCoupon db code with
    | none => simp [hf] at h
    | some c0 =>
      simp only [hf] at h
      by_cases hcond : c0.isActive = true ∧ env.now < c0.expiresAt
      · rw [if_pos hcond] at h
        have hc0 : c0 = c := Option.some.inj h
        subst hc0
        have hguard : ¬(c0.usageLimit > 0 ∧ c0.usageCount ≥ c0.usageLimit) := by
          rintro ⟨h1, h2⟩
          rcases havail with h3 | h3 <;> omega
        simp [hcond, hguard]
      · rw [if_neg hcond] at h
        exact absurd h (by simp)

lemma applyCouponStep_exhausted (env : Env) (db : DB) (S : ℚ) (c : Coupon)
    (h : appliedCoupon env db = some c)
    (h1 : c.usageLimit > 0) (h2 : c.usageCount ≥ c.usageLimit) :
    applyCouponStep env db S =
      .error (.invalidState "Coupon usage limit exceeded") := by
  cases hcc : env.couponCode with
  | none => simp [appliedCoupon, hcc] at h
  | some code =>
    simp only [appliedCoupon, hcc] at h
    simp only [applyCouponStep, hcc]
    cases hf : findCoupon db code with
    | none => simp [hf] at h
    | some c0 =>
      simp only [hf] at h
      by_cases hcond : c0.isActive = true ∧ env.now < c0.expiresAt
      · rw [if_pos hcond] at h
        have hc0 : c0 = c := Option.some.inj h
        subst hc0
        simp [hcond, h1, h2]
      · rw [if_neg hcond] at h
        exact absurd h (by simp)

lemma couponAvailB_none (env : Env) (db : DB) (n : Nat)
    (h : appliedCoupon env db = none) : couponAvailB env db n = true := by
  simp [couponAvailB, h]

lemma couponAvailB_some (env : Env) (db : DB) (n : Nat) (c : Coupon)
    (h : appliedCoupon env db = some c)
    (hav : couponAvailB env db n = true) :
    c.usageLimit ≤ 0 ∨ c.usageCount + n ≤ c.usageLimit := by
  simp only [couponAvailB, h, Bool.or_eq_true, decide_eq_true_eq] at hav
  exact hav

lemma appliedCoupon_some_find (env : Env) (db : DB) (c : Coupon)
    (h : appliedCoupon env db = some c) : findCoupon db c.code = some c := by
  cases hcc : env.couponCode with
  | none => simp [appliedCoupon, hcc] at h
  | some code =>
    simp only [appliedCoupon, hcc] at h
    cases hf : findCoupon db code with
    | none => simp [hf] at h
    | some c0 =>
      simp only [hf] at h
      by_cases hcond : c0.isActive = true ∧ env.now < c0.expiresAt
      · rw [if_pos hcond] at h
        have hc0 : c0 = c := Option.some.inj h
        subst hc0
        rw [findCoupon_code db code c0 hf]
        exact hf
      · rw [if_neg hcond] at h
        exact absurd h (by simp)

lemma expectedTotal_none (env : Env) (db : DB) (S : ℚ)
    (h : appliedCoupon env db = none) : expectedTotal env db S = S := by
  unfold expectedTotal
  rw [h]

lemma expectedTotal_some (env : Env) (db : DB) (S : ℚ) (c : Coupon)
    (h : appliedCoupon env db = some c) :
    expectedTotal env db S = discountedTotal c.discountType c.discount S := by
  unfold expectedTotal
  rw [h]

lemma mkExpOrder_congr (env : Env) (db1 db2 : DB) (uid : String) (b i : Nat)
    (g : String × List CartItem)
    (hsome : (appliedCoupon env db1).isSome = (appliedCoupon env db2).isSome)
    (htot : ∀ S, expectedTotal env db1 S = expectedTotal env db2 S) :
    mkExpOrder env db1 uid b i g = mkExpOrder env db2 uid b i g := by
  unfold mkExpOrder
  rw [hsome, htot]

lemma expOrders_congr (env : Env) (db1 db2 : DB) (uid : String)
    (hsome : (appliedCoupon env db1).isSome = (appliedCoupon env db2).isSome)
    (htot : ∀ S, expectedTotal env db1 S = expectedTotal env db2 S) :
    ∀ (gs : List (String × List CartItem)) (b i : Nat),
      expOrders env db1 uid b i gs = expOrders env db2 uid b i gs := by
  intro gs
  induction gs with
  | nil => intro b i; rfl
  | cons g rest ih =>
    intro b i
    simp only [expOrders]
    rw [mkExpOrder_congr env db1 db2 uid b i g hsome htot, ih]

/-! ### Loop lemmas

The per-store loop of lines 185–259: one step, then the full
characterization of a run in which every group's transaction commits, and
of a run whose transaction first aborts at group `k`. -/

lemma runGroupTx_snd (env : Env) (uid sid onum : String) (ft : ℚ)
    (cu : Bool) (its : List CartItem) (db : DB) :
    (runGroupTx env uid sid onum ft cu its db).2 =
      { id := db.nextOrderId, orderNumber := onum, total := ft,
        userId := uid, storeId := sid, paymentMethod := env.paymentMethod,
        isCouponUsed := cu,
        coupon := if cu then env.couponCode else none,
        status := .PENDING } := rfl

lemma runGroupTx_coupons (env : Env) (uid sid onum : String) (ft : ℚ)
    (cu : Bool) (its : List CartItem) (db : DB) :
    (runGroupTx env uid sid onum ft cu its db).1.coupons = db.coupons := rfl

lemma runGroupTx_users (env : Env) (uid sid onum : String) (ft : ℚ)
    (cu : Bool) (its : List CartItem) (db : DB) :
    (runGroupTx env uid sid onum ft cu its db).1.users = db.users := rfl

lemma runGroupTx_products (env : Env) (uid sid onum : String) (ft : ℚ)
    (cu : Bool) (its : List CartItem) (db : DB) :
    (runGroupTx env uid sid onum ft cu its db).1.products = db.products := rfl

lemma runGroupTx_stores (env : Env) (uid sid onum : String) (ft : ℚ)
    (cu : Bool) (its : List CartItem) (db : DB) :
    (runGroupTx env uid sid onum ft cu its db).1.stores = db.stores := rfl

lemma runGroupTx_orders (env : Env) (uid sid onum : String) (ft : ℚ)
    (cu : Bool) (its : List CartItem) (db : DB) :
    (runGroupTx env uid sid onum ft cu its db).1.orders =
      db.orders ++ [(runGroupTx env uid sid onum ft cu its db).2] := rfl

lemma runGroupTx_orderItems (env : Env) (uid sid onum : String) (ft : ℚ)
    (cu : Bool) (its : List CartItem) (db : DB) :
    (runGroupTx env uid sid onum ft cu its db).1.orderItems =
      db.orderItems ++ its.map (fun it =>
        ({ orderId := db.nextOrderId, productId := it.productId,
           quantity := it.quantity, price := it.price } : OrderItem)) := rfl

lemma runGroupTx_nextOrderId (env : Env) (uid sid onum : String) (ft : ℚ)
    (cu : Bool) (its : List CartItem) (db : DB) :
    (runGroupTx env uid sid onum ft cu its db).1.nextOrderId =
      db.nextOrderId + 1 := rfl

lemma incCoupon_users (db : DB) (cid : String) :
    (incCoupon db cid).users = db.users := rfl

lemma incCoupon_orders (db : DB) (cid : String) :
    (incCoupon db cid).orders = db.orders := rfl

lemma incCoupon_orderItems (db : DB) (cid : String) :
    (incCoupon db cid).orderItems = db.orderItems := rfl

lemma incCoupon_products (db : DB) (cid : String) :
    (incCoupon db cid).products = db.products := rfl

lemma incCoupon_stores (db : DB) (cid : String) :
    (incCoupon db cid).stores = db.stores := rfl

lemma incCoupon_nextOrderId (db : DB) (cid : String) :
    (incCoupon db cid).nextOrderId = db.nextOrderId := rfl

lemma processGroups_cons_ok (env : Env) (oracle : Nat → Bool) (uid : String)
    (sid : String) (its : List CartItem)
    (rest : List (String × List CartItem)) (i : Nat) (db : DB)
    (acc : List Order) (dbc : DB) (ft : ℚ) (cu : Bool)
    (hstep : applyCouponStep env db (groupSubtotal its) = .ok (dbc, ft, cu))
    (hor0 : oracle i = false) :
    processGroups env oracle uid ((sid, its) :: rest) i db acc =
      processGroups env oracle uid rest (i + 1)
        (runGroupTx env uid sid
          (mkOrderNumber (env.gen i).1 (env.gen i).2) ft cu its dbc).1
        (acc ++ [(runGroupTx env uid sid
          (mkOrderNumber (env.gen i).1 (env.gen i).2) ft cu its dbc).2]) := by
  simp only [processGroups, hstep, hor0]
  simp

lemma processGroups_cons_fail (env : Env) (oracle : Nat → Bool)
    (uid : String) (sid : String) (its : List CartItem)
    (rest : List (String × List CartItem)) (i : Nat) (db : DB)
    (acc : List Order) (dbc : DB) (ft : ℚ) (cu : Bool)
    (hstep : applyCouponStep env db (groupSubtotal its) = .ok (dbc, ft, cu))
    (hor0 : oracle i = true) :
    processGroups env oracle uid ((sid, its) :: rest) i db acc =
      (dbc, .error .dbFail) := by
  simp only [processGroups, hstep, hor0]
  simp

lemma processGroups_cons_throw (env : Env) (oracle : Nat → Bool)
    (uid : String) (sid : String) (its : List CartItem)
    (rest : List (String × List CartItem)) (i : Nat) (db : DB)
    (acc : List Order) (e : OrderError)
    (hstep : applyCouponStep env db (groupSubtotal its) = .error e) :
    processGroups env oracle uid ((sid, its) :: rest) i db acc =
      (db, .error e) := by
  simp only [processGroups, hstep]

lemma processGroups_ok (env : Env) (oracle : Nat → Bool) (uid : String) :
    ∀ (gs : List (String × List CartItem)),
      ∀ (i : Nat) (db : DB) (acc : List Order),
      (∀ k, k < gs.length → oracle (i + k) = false) →
      couponAvailB env db gs.length = true →
      ∃ db1,
        processGroups env oracle uid gs i db acc =
          (db1, .ok (acc ++ expOrders env db uid db.nextOrderId i gs)) ∧
        db1.orders = db.orders ++ expOrders env db uid db.nextOrderId i gs ∧
        db1.orderItems = db.orderItems ++ expRows db.nextOrderId gs ∧
        db1.users = db.users ∧
        db1.products = db.products ∧
        db1.stores = db.stores ∧
        db1.nextOrderId = db.nextOrderId + gs.length ∧
        (appliedCoupon env db = none → db1.coupons = db.coupons) ∧
        (∀ c, appliedCoupon env db = some c →
          findCoupon db1 c.code =
            some { c with usageCount := c.usageCount + gs.length }) := by
  intro gs
  induction gs with
  | nil =>
    intro i db acc _ _
    refine ⟨db, by simp [processGroups, expOrders], by simp [expOrders],
      by simp [expRows], rfl, rfl, rfl, by simp, fun _ => rfl, ?_⟩
    intro c hc
    have hfind := appliedCoupon_some_find env db c hc
    rw [hfind]
    congr 1
    cases c
    simp
  | cons g rest ih =>
    obtain ⟨sid, its⟩ := g
    intro i db acc hor hav
    have hor0 : oracle i = false := by simpa using hor 0 (by simp)
    have horRest : ∀ k, k < rest.length → oracle (i + 1 + k) = false := by
      intro k hk
      have h2 := hor (k + 1) (by simpa using Nat.succ_lt_succ hk)
      rw [show i + 1 + k = i + (k + 1) from by omega]
      exact h2
    cases hc : appliedCoupon env db with
    | none =>
      have hstep := applyCouponStep_none env db (groupSubtotal its) hc
      have hone := processGroups_cons_ok env oracle uid sid its rest i db acc
        db (groupSubtotal its) false hstep hor0
      have hAC2 : appliedCoupon env
          ((runGroupTx env uid sid
            (mkOrderNumber (env.gen i).1 (env.gen i).2)
            (groupSubtotal its) false its db).1) = none := by
        rw [appliedCoupon_congr env _ db (runGroupTx_coupons _ _ _ _ _ _ _ _)]
        exact hc
      have hav2 := couponAvailB_none env _ rest.length hAC2
      obtain ⟨db1, heq, hord, hitems, husers, hprods, hstores, hnext,
        hcnone, hcsome⟩ := ih (i + 1) _ _ horRest hav2
      have ho : (runGroupTx env uid sid
          (mkOrderNumber (env.gen i).1 (env.gen i).2)
          (groupSubtotal its) false its db).2 =
          mkExpOrder env db uid db.nextOrderId i (sid, its) := by
        rw [runGroupTx_snd]
        simp [mkExpOrder, expectedTotal, hc]
      have hX : expOrders env
          ((runGroupTx env uid sid
            (mkOrderNumber (env.gen i).1 (env.gen i).2)
            (groupSubtotal its) false its db).1) uid
          (db.nextOrderId + 1) (i + 1) rest =
          expOrders env db uid (db.nextOrderId + 1) (i + 1) rest := by
        apply expOrders_congr
        · rw [hAC2, hc]
        · intro S
          rw [expectedTotal_none env _ S hAC2, expectedTotal_none env db S hc]
      refine ⟨db1, ?_, ?_, ?_, ?_, ?_, ?_, ?_, ?_, ?_⟩
      · rw [hone, heq, runGroupTx_nextOrderId, hX, ho]
        simp [expOrders]
      · rw [hord, runGroupTx_orders, runGroupTx_nextOrderId, hX, ho]
        simp [expOrders]
      · rw [hitems, runGroupTx_orderItems, runGroupTx_nextOrderId]
        simp [expRows]
      · rw [husers, runGroupTx_users]
      · rw [hprods, runGroupTx_products]
      · rw [hstores, runGroupTx_stores]
      · rw [hnext, runGroupTx_nextOrderId]
        simp
        omega
      · intro _
        rw [hcnone hAC2, runGroupTx_coupons]
      · intro c hcon
        exact absurd hcon (by simp)
    | some c =>
      have hav2 := couponAvailB_some env db _ c hc hav
      simp only [List.length_cons] at hav2
      have havail : c.usageLimit ≤ 0 ∨ c.usageCount < c.usageLimit := by
        rcases hav2 with h3 | h3
        · exact Or.inl h3
        · right
          push_cast at h3
          omega
      have hstep := applyCouponStep_some env db (groupSubtotal its) c hc havail
      have hone := processGroups_cons_ok env oracle uid sid its rest i db acc
        (incCoupon db c.id)
        (discountedTotal c.discountType c.discount (groupSubtotal its))
        true hstep hor0
      have hACinc := appliedCoupon_inc env db c hc
      have hAC2 : appliedCoupon env
          ((runGroupTx env uid sid
            (mkOrderNumber (env.gen i).1 (env.gen i).2)
            (discountedTotal c.discountType c.discount (groupSubtotal its))
            true its (incCoupon db c.id)).1) =
          some { c with usageCount := c.usageCount + 1 } := by
        rw [appliedCoupon_congr env _ (incCoupon db c.id)
          (runGroupTx_coupons _ _ _ _ _ _ _ _)]
        exact hACinc
      have hav3 : couponAvailB env
          ((runGroupTx env uid sid
            (mkOrderNumber (env.gen i).1 (env.gen i).2)
            (discountedTotal c.discountType c.discount (groupSubtotal its))
            true its (incCoupon db c.id)).1) rest.length = true := by
        simp only [couponAvailB, hAC2, Bool.or_eq_true, decide_eq_true_eq]
        rcases hav2 with h3 | h3
        · exact Or.inl h3
        · right
          push_cast at h3 ⊢
          omega
      obtain ⟨db1, heq, hord, hitems, husers, hprods, hstores, hnext,
        hcnone, hcsome⟩ := ih (i + 1) _ _ horRest hav3
      have ho : (runGroupTx env uid sid
          (mkOrderNumber (env.gen i).1 (env.gen i).2)
          (discountedTotal c.discountType c.discount (groupSubtotal its))
          true its (incCoupon db c.id)).2 =
          mkExpOrder env db uid db.nextOrderId i (sid, its) := by
        rw [runGroupTx_snd]
        simp only [incCoupon_nextOrderId]
        simp [mkExpOrder, expectedTotal, hc]
      have hX : expOrders env
          ((runGroupTx env uid sid
            (mkOrderNumber (env.gen i).1 (env.gen i).2)
            (discountedTotal c.discountType c.discount (groupSubtotal its))
            true its (incCoupon db c.id)).1) uid
          (db.nextOrderId + 1) (i + 1) rest =
          expOrders env db uid (db.nextOrderId + 1) (i + 1) rest := by
        apply expOrders_congr
        · rw [hAC2, hc]
          rfl
        · intro S
          rw [expectedTotal_some env _ S _ hAC2, expectedTotal_some env db S c hc]
      refine ⟨db1, ?_, ?_, ?_, ?_, ?_, ?_, ?_, ?_, ?_⟩
      · rw [hone, heq, runGroupTx_nextOrderId, incCoupon_nextOrderId, hX, ho]
        simp [expOrders]
      · rw [hord, runGroupTx_orders, runGroupTx_nextOrderId,
          incCoupon_nextOrderId, incCoupon_orders, hX, ho]
        simp [expOrders]
      · rw [hitems, runGroupTx_orderItems, runGroupTx_nextOrderId,
          incCoupon_nextOrderId, incCoupon_orderItems]
        simp [expRows]
      · rw [husers, runGroupTx_users, incCoupon_users]
      · rw [hprods, runGroupTx_products, incCoupon_products]
      · rw [hstores, runGroupTx_stores, incCoupon_stores]
      · rw [hnext, runGroupTx_nextOrderId, incCoupon_nextOrderId]
        simp
        omega
      · intro hcon
        exact absurd hcon (by simp)
      · intro c2 hcon
        have hc2 : c2 = c := (Option.some.inj hcon).symm
        rw [hc2]
        have hres := hcsome { c with usageCount := c.usageCount + 1 } hAC2
        have hcode : ({ c with usageCount := c.usageCount + 1 } : Coupon).code
            = c.code := rfl
        rw [hcode] at hres
        rw [hres]
        simp only [List.length_cons]
        congr 2
        push_cast
        ring

lemma processGroups_fail (env : Env) (oracle : Nat → Bool) (uid : String) :
    ∀ (gs : List (String × List CartItem)) (k : Nat),
      ∀ (i : Nat) (db : DB) (acc : List Order),
      k < gs.length →
      (∀ j, j < k → oracle (i + j) = false) →
      oracle (i + k) = true →
      couponAvailB env db (k + 1) = true →
      ∃ db1,
        processGroups env oracle uid gs i db acc = (db1, .error .dbFail) ∧
        db1.orders =
          db.orders ++ expOrders env db uid db.nextOrderId i (gs.take k) ∧
        db1.orderItems =
          db.orderItems ++ expRows db.nextOrderId (gs.take k) ∧
        db1.users = db.users ∧
        (appliedCoupon env db = none → db1.coupons = db.coupons) ∧
        (∀ c, appliedCoupon env db = some c →
          findCoupon db1 c.code =
            some { c with usageCount := c.usageCount + (k + 1) }) := by
  intro gs
  induction gs with
  | nil =>
    intro k i db acc hk
    exact absurd hk (by simp)
  | cons g rest ih =>
    obtain ⟨sid, its⟩ := g
    intro k i db acc hk hor hork hav
    cases k with
    | zero =>
      have hork0 : oracle i = true := by simpa using hork
      cases hc : appliedCoupon env db with
      | none =>
        have hstep := applyCouponStep_none env db (groupSubtotal its) hc
        have hfail := processGroups_cons_fail env oracle uid sid its rest i db
          acc db (groupSubtotal its) false hstep hork0
        refine ⟨db, hfail, by simp [expOrders], by simp [expRows], rfl,
          fun _ => rfl, ?_⟩
        intro c hcon
        exact absurd hcon (by simp)
      | some c =>
        have hav2 := couponAvailB_some env db _ c hc hav
        have havail : c.usageLimit ≤ 0 ∨ c.usageCount < c.usageLimit := by
          rcases hav2 with h3 | h3
          · exact Or.inl h3
          · right
            push_cast at h3
            omega
        have hstep := applyCouponStep_some env db (groupSubtotal its) c hc
          havail
        have hfail := processGroups_cons_fail env oracle uid sid its rest i db
          acc (incCoupon db c.id)
          (discountedTotal c.discountType c.discount (groupSubtotal its))
          true hstep hork0
        refine ⟨incCoupon db c.id, hfail,
          by simp [expOrders, incCoupon_orders],
          by simp [expRows, incCoupon_orderItems],
          incCoupon_users db c.id, ?_, ?_⟩
        · intro hcon
          exact absurd hcon (by simp)
        · intro c2 hcon
          have hc2 : c2 = c := (Option.some.inj hcon).symm
          rw [hc2]
          have hres := findCoupon_incCoupon db c.code c
            (appliedCoupon_some_find env db c hc)
          rw [hres]
          simp
    | succ k2 =>
      have hk2 : k2 < rest.length := by simpa using hk
      have hor0 : oracle i = false := by simpa using hor 0 (by simp)
      have horShift : ∀ j, j < k2 → oracle (i + 1 + j) = false := by
        intro j hj
        have h2 := hor (j + 1) (by omega)
        rw [show i + 1 + j = i + (j + 1) from by omega]
        exact h2
      have horkShift : oracle (i + 1 + k2) = true := by
        rw [show i + 1 + k2 = i + (k2 + 1) from by omega]
        exact hork
      cases hc : appliedCoupon env db with
      | none =>
        have hstep := applyCouponStep_none env db (groupSubtotal its) hc
        have hone := processGroups_cons_ok env oracle uid sid its rest i db
          acc db (groupSubtotal its) false hstep hor0
        have hAC2 : appliedCoupon env
            ((runGroupTx env uid sid
              (mkOrderNumber (env.gen i).1 (env.gen i).2)
              (groupSubtotal its) false its db).1) = none := by
          rw [appliedCoupon_congr env _ db (runGroupTx_coupons _ _ _ _ _ _ _ _)]
          exact hc
        have hav2 := couponAvailB_none env _ (k2 + 1) hAC2
        obtain ⟨db1, heq, hord, hitems, husers, hcnone, hcsome⟩ :=
          ih k2 (i + 1) _ _ hk2 horShift horkShift hav2
        have ho : (runGroupTx env uid sid
            (mkOrderNumber (env.gen i).1 (env.gen i).2)
            (groupSubtotal its) false its db).2 =
            mkExpOrder env db uid db.nextOrderId i (sid, its) := by
          rw [runGroupTx_snd]
          simp [mkExpOrder, expectedTotal, hc]
        have hX : expOrders env
            ((runGroupTx env uid sid
              (mkOrderNumber (env.gen i).1 (env.gen i).2)
              (groupSubtotal its) false its db).1) uid
            (db.nextOrderId + 1) (i + 1) (rest.take k2) =
            expOrders env db uid (db.nextOrderId + 1) (i + 1)
              (rest.take k2) := by
          apply expOrders_congr
          · rw [hAC2, hc]
          · intro S
            rw [expectedTotal_none env _ S hAC2,
              expectedTotal_none env db S hc]
        refine ⟨db1, ?_, ?_, ?_, ?_, ?_, ?_⟩
        · rw [hone, heq]
        · rw [hord, runGroupTx_orders, runGroupTx_nextOrderId, hX, ho]
          simp [expOrders]
        · rw [hitems, runGroupTx_orderItems, runGroupTx_nextOrderId]
          simp [expRows]
        · rw [husers, runGroupTx_users]
        · intro _
          rw [hcnone hAC2, runGroupTx_coupons]
        · intro c hcon
          exact absurd hcon (by simp)
      | some c =>
        have hav2 := couponAvailB_some env db _ c hc hav
        have havail : c.usageLimit ≤ 0 ∨ c.usageCount < c.usageLimit := by
          rcases hav2 with h3 | h3
          · exact Or.inl h3
          · right
            push_cast at h3
            omega
        have hstep := applyCouponStep_some env db (groupSubtotal its) c hc
          havail
        have hone := processGroups_cons_ok env oracle uid sid its rest i db
          acc (incCoupon db c.id)
          (discountedTotal c.discountType c.discount (groupSubtotal its))
          true hstep hor0
        have hACinc := appliedCoupon_inc env db c hc
        have hAC2 : appliedCoupon env
            ((runGroupTx env uid sid
              (mkOrderNumber (env.gen i).1 (env.gen i).2)
              (discountedTotal c.discountType c.discount (groupSubtotal its))
              true its (incCoupon db c.id)).1) =
            some { c with usageCount := c.usageCount + 1 } := by
          rw [appliedCoupon_congr env _ (incCoupon db c.id)
            (runGroupTx_coupons _ _ _ _ _ _ _ _)]
          exact hACinc
        have hav3 : couponAvailB env
            ((runGroupTx env uid sid
              (mkOrderNumber (env.gen i).1 (env.gen i).2)
              (discountedTotal c.discountType c.discount (groupSubtotal its))
              true its (incCoupon db c.id)).1) (k2 + 1) = true := by
          simp only [couponAvailB, hAC2, Bool.or_eq_true, decide_eq_true_eq]
          rcases hav2 with h3 | h3
          · exact Or.inl h3
          · right
            push_cast at h3 ⊢
            omega
        obtain ⟨db1, heq, hord, hitems, husers, hcnone, hcsome⟩ :=
          ih k2 (i + 1) _ _ hk2 horShift horkShift hav3
        have ho : (runGroupTx env uid sid
            (mkOrderNumber (env.gen i).1 (env.gen i).2)
            (discountedTotal c.discountType c.discount (groupSubtotal its))
            true its (incCoupon db c.id)).2 =
            mkExpOrder env db uid db.nextOrderId i (sid, its) := by
          rw [runGroupTx_snd]
          simp only [incCoupon_nextOrderId]
          simp [mkExpOrder, expectedTotal, hc]
        have hX : expOrders env
            ((runGroupTx env uid sid
              (mkOrderNumber (env.gen i).1 (env.gen i).2)
              (discountedTotal c.discountType c.discount (groupSubtotal its))
              true its (incCoupon db c.id)).1) uid
            (db.nextOrderId + 1) (i + 1) (rest.take k2) =
            expOrders env db uid (db.nextOrderId + 1) (i + 1)
              (rest.take k2) := by
          apply expOrders_congr
          · rw [hAC2, hc]
            rfl
          · intro S
            rw [expectedTotal_some env _ S _ hAC2,
              expectedTotal_some env db S c hc]
        refine ⟨db1, ?_, ?_, ?_, ?_, ?_, ?_⟩
        · rw [hone, heq]
        · rw [hord, runGroupTx_orders, runGroupTx_nextOrderId,
            incCoupon_nextOrderId, incCoupon_orders, hX, ho]
          simp [expOrders]
        · rw [hitems, runGroupTx_orderItems, runGroupTx_nextOrderId,
            incCoupon_nextOrderId, incCoupon_orderItems]
          simp [expRows]
        · rw [husers, runGroupTx_users, incCoupon_users]
        · intro hcon
          exact absurd hcon (by simp)
        · intro c2 hcon
          have hc2 : c2 = c := (Option.some.inj hcon).symm
          rw [hc2]
          have hres := hcsome { c with usageCount := c.usageCount + 1 } hAC2
          have hcode : ({ c with usageCount := c.usageCount + 1 } : Coupon).code
              = c.code := rfl
          rw [hcode] at hres
          rw [hres]
          congr 2
          push_cast
          ring

/-! ### Shape of the inserted orders -/

lemma expOrders_length (env : Env) (db : DB) (uid : String) :
    ∀ (gs : List (String × List CartItem)) (b i : Nat),
      (expOrders env db uid b i gs).length = gs.length := by
  intro gs
  induction gs with
  | nil => intro b i; rfl
  | cons g rest ih =>
    intro b i
    simp [expOrders, ih]

lemma expOrders_get (env : Env) (db : DB) (uid : String) :
    ∀ (gs : List (String × List CartItem)) (b i k : Nat)
      (hk : k < gs.length)
      (hk2 : k < (expOrders env db uid b i gs).length),
      (expOrders env db uid b i gs).get ⟨k, hk2⟩ =
        mkExpOrder env db uid (b + k) (i + k) (gs.get ⟨k, hk⟩) := by
  intro gs
  induction gs with
  | nil =>
    intro b i k hk
    exact absurd hk (by simp)
  | cons g rest ih =>
    intro b i k hk hk2
    cases k with
    | zero => simp [expOrders]
    | succ k2 =>
      have hk3 : k2 < rest.length := by simpa using hk
      have hk4 : k2 < (expOrders env db uid (b + 1) (i + 1) rest).length := by
        rw [expOrders_length]
        exact hk3
      have hstep : (expOrders env db uid b i (g :: rest)).get ⟨k2 + 1, hk2⟩ =
          (expOrders env db uid (b + 1) (i + 1) rest).get ⟨k2, hk4⟩ := rfl
      rw [hstep, ih (b + 1) (i + 1) k2 hk3 hk4]
      congr 1 <;> omega

lemma expOrders_map_storeId (env : Env) (db : DB) (uid : String) :
    ∀ (gs : List (String × List CartItem)) (b i : Nat),
      (expOrders env db uid b i gs).map Order.storeId = gs.map Prod.fst := by
  intro gs
  induction gs with
  | nil => intro b i; rfl
  | cons g rest ih =>
    intro b i
    simp [expOrders, mkExpOrder, ih]

lemma expOrders_fields (env : Env) (db : DB) (uid : String) :
    ∀ (gs : List (String × List CartItem)) (b i : Nat) (o : Order),
      o ∈ expOrders env db uid b i gs →
      o.isCouponUsed = (appliedCoupon env db).isSome ∧
      o.coupon =
        (if (appliedCoupon env db).isSome then env.couponCode else none) ∧
      o.userId = uid ∧
      o.status = OrderStatus.PENDING := by
  intro gs
  induction gs with
  | nil => intro b i o ho; exact absurd ho (by simp [expOrders])
  | cons g rest ih =>
    intro b i o ho
    rcases List.mem_cons.mp ho with rfl | ho2
    · exact ⟨rfl, rfl, rfl, rfl⟩
    · exact ih (b + 1) (i + 1) o ho2

lemma expOrders_orderNumber_mem (env : Env) (db : DB) (uid : String) :
    ∀ (gs : List (String × List CartItem)) (b i : Nat) (x : String),
      x ∈ (expOrders env db uid b i gs).map Order.orderNumber →
      ∃ k, k < gs.length ∧
        x = mkOrderNumber (env.gen (i + k)).1 (env.gen (i + k)).2 := by
  intro gs
  induction gs with
  | nil => intro b i x hx; exact absurd hx (by simp [expOrders])
  | cons g rest ih =>
    intro b i x hx
    simp only [expOrders, List.map_cons, List.mem_cons] at hx
    rcases hx with rfl | hx2
    · exact ⟨0, by simp, by simp [mkExpOrder]⟩
    · obtain ⟨k, hk, hxk⟩ := ih (b + 1) (i + 1) x hx2
      refine ⟨k + 1, by simpa using Nat.succ_lt_succ hk, ?_⟩
      rw [show i + (k + 1) = i + 1 + k from by omega]
      exact hxk

lemma expOrders_orderNumbers_nodup (env : Env) (db : DB) (uid : String)
    (hinj : ∀ j k : Nat, j ≠ k →
      mkOrderNumber (env.gen j).1 (env.gen j).2 ≠
        mkOrderNumber (env.gen k).1 (env.gen k).2) :
    ∀ (gs : List (String × List CartItem)) (b i : Nat),
      ((expOrders env db uid b i gs).map Order.orderNumber).Nodup := by
  intro gs
  induction gs with
  | nil => intro b i; simp [expOrders]
  | cons g rest ih =>
    intro b i
    simp only [expOrders, List.map_cons, List.nodup_cons]
    refine ⟨?_, ih (b + 1) (i + 1)⟩
    intro hmem
    obtain ⟨k, hk, hxk⟩ :=
      expOrders_orderNumber_mem env db uid rest (b + 1) (i + 1) _ hmem
    have hne : i ≠ i + 1 + k := by omega
    exact hinj i (i + 1 + k) hne (by simpa [mkExpOrder] using hxk)

/-! ### Unfolding `createOrder` past the validation phase -/

lemma createOrderF_run_ok (env : Env) (oracle : Nat → Bool) (uid : String)
    (db : DB) (cart : Cart) (db1 : DB) (os : List Order)
    (hu : findUser db uid = some (some cart))
    (hne : cart.items ≠ [])
    (hv : ∀ it ∈ cart.items, itemValidB db it = true)
    (hpg : processGroups env oracle uid (groupAll db cart.items []) 0 db [] =
      (db1, .ok os)) :
    createOrderF env oracle uid db =
      (setUserCart db1 uid (some emptyCart), .ok (resultOf os)) := by
  have key : createOrderF env oracle uid db =
      match processGroups env oracle uid (groupAll db cart.items []) 0 db [] with
      | (d, Except.error e) => (d, Except.error e)
      | (d, Except.ok os2) =>
        (setUserCart d uid (some emptyCart), Except.ok (resultOf os2)) := by
    simp only [createOrderF, hu, Option.getD_some]
    rw [if_neg (by simpa [List.length_eq_zero] using hne)]
    rw [validateAndGroup_ok db cart.items [] hv]
    rfl
  rw [key, hpg]

lemma createOrderF_run_err (env : Env) (oracle : Nat → Bool) (uid : String)
    (db : DB) (cart : Cart) (db1 : DB) (e : OrderError)
    (hu : findUser db uid = some (some cart))
    (hne : cart.items ≠ [])
    (hv : ∀ it ∈ cart.items, itemValidB db it = true)
    (hpg : processGroups env oracle uid (groupAll db cart.items []) 0 db [] =
      (db1, .error e)) :
    createOrderF env oracle uid db = (db1, .error e) := by
  have key : createOrderF env oracle uid db =
      match processGroups env oracle uid (groupAll db cart.items []) 0 db [] with
      | (d, Except.error e2) => (d, Except.error e2)
      | (d, Except.ok os2) =>
        (setUserCart d uid (some emptyCart), Except.ok (resultOf os2)) := by
    simp only [createOrderF, hu, Option.getD_some]
    rw [if_neg (by simpa [List.length_eq_zero] using hne)]
    rw [validateAndGroup_ok db cart.items [] hv]
    rfl
  rw [key, hpg]

lemma createOrderF_run_invalid (env : Env) (oracle : Nat → Bool)
    (uid : String) (db : DB) (cart : Cart) (pre post : List CartItem)
    (it : CartItem)
    (hu : findUser db uid = some (some cart))
    (hsplit : cart.items = pre ++ it :: post)
    (hvpre : ∀ x ∈ pre, itemValidB db x = true)
    (hbad : itemValidB db it = false) :
    createOrderF env oracle uid db = (db, .error (itemError db it)) := by
  have hne : cart.items ≠ [] := by
    rw [hsplit]
    simp
  simp only [createOrderF, hu, Option.getD_some]
  rw [if_neg (by simpa [List.length_eq_zero] using hne)]
  rw [hsplit, validateAndGroup_error db pre it post [] hvpre hbad]

/-! ### State preserved by the loop outside its own writes -/

lemma applyCouponStep_ok_cases (env : Env) (db : DB) (S : ℚ) (dbc : DB)
    (ft : ℚ) (cu : Bool)
    (h : applyCouponStep env db S = .ok (dbc, ft, cu)) :
    dbc = db ∨ ∃ c, appliedCoupon env db = some c ∧
      dbc = incCoupon db c.id ∧
      ¬(c.usageLimit > 0 ∧ c.usageCount ≥ c.usageLimit) := by
  cases hcc : env.couponCode with
  | none =>
    simp only [applyCouponStep, hcc] at h
    exact Or.inl (congrArg Prod.fst (Except.ok.inj h)).symm
  | some code =>
    simp only [applyCouponStep, hcc] at h
    cases hf : findCoupon db code with
    | none =>
      simp only [hf] at h
      exact Or.inl (congrArg Prod.fst (Except.ok.inj h)).symm
    | some c =>
      simp only [hf] at h
      by_cases hcond : c.isActive = true ∧ env.now < c.expiresAt
      · rw [if_pos hcond] at h
        by_cases hguard : c.usageLimit > 0 ∧ c.usageCount ≥ c.usageLimit
        · rw [if_pos hguard] at h
          exact absurd h (by simp)
        · rw [if_neg hguard] at h
          refine Or.inr ⟨c, by simp [appliedCoupon, hcc, hf, hcond], ?_, hguard⟩
          exact (congrArg Prod.fst (Except.ok.inj h)).symm
      · rw [if_neg hcond] at h
        exact Or.inl (congrArg Prod.fst (Except.ok.inj h)).symm

lemma processGroups_users (env : Env) (oracle : Nat → Bool) (uid : String) :
    ∀ (gs : List (String × List CartItem)) (i : Nat) (db : DB)
      (acc : List Order),
      (processGroups env oracle uid gs i db acc).1.users = db.users := by
  intro gs
  induction gs with
  | nil => intro i db acc; rfl
  | cons g rest ih =>
    obtain ⟨sid, its⟩ := g
    intro i db acc
    cases happ : applyCouponStep env db (groupSubtotal its) with
    | error e =>
      rw [processGroups_cons_throw env oracle uid sid its rest i db acc e happ]
    | ok trip =>
      obtain ⟨dbc, ft, cu⟩ := trip
      have hcu : dbc.users = db.users := by
        rcases applyCouponStep_ok_cases env db _ dbc ft cu happ with
          rfl | ⟨c, _, rfl, _⟩
        · rfl
        · exact incCoupon_users db c.id
      cases horc : oracle i with
      | true =>
        rw [processGroups_cons_fail env oracle uid sid its rest i db acc dbc
          ft cu happ horc]
        exact hcu
      | false =>
        rw [processGroups_cons_ok env oracle uid sid its rest i db acc dbc
          ft cu happ horc]
        rw [ih]
        rw [runGroupTx_users]
        exact hcu

lemma createOrderF_error_users (env : Env) (oracle : Nat → Bool)
    (uid : String) (db : DB) (r : DB) (e : OrderError)
    (h : createOrderF env oracle uid db = (r, .error e)) :
    r.users = db.users := by
  unfold createOrderF at h
  cases hu : findUser db uid with
  | none =>
    rw [hu] at h
    simp at h
    rw [← h.1]
  | some cf =>
    rw [hu] at h
    simp only at h
    by_cases hl : (cf.getD { items := [], total := 0 }).items.length = 0
    · rw [if_pos hl] at h
      simp at h
      rw [← h.1]
    · rw [if_neg hl] at h
      cases hva : validateAndGroup db (cf.getD { items := [], total := 0 }).items [] with
      | error e2 =>
        rw [hva] at h
        simp at h
        rw [← h.1]
      | ok gs =>
        rw [hva] at h
        have h2 : (match processGroups env oracle uid gs 0 db [] with
            | (d, Except.error e2) => (d, Except.error e2)
            | (d, Except.ok os2) =>
              (setUserCart d uid (some emptyCart),
               Except.ok (resultOf os2))) = (r, Except.error e) := h
        cases hpg : processGroups env oracle uid gs 0 db [] with
        | mk db1 res =>
          rw [hpg] at h2
          cases res with
          | error e2 =>
            simp only [Prod.mk.injEq] at h2
            rw [← h2.1]
            have hus := processGroups_users env oracle uid gs 0 db []
            rw [hpg] at hus
            exact hus
          | ok os => simp at h2

/-! ### The coupon usage invariant -/

lemma couponInv_inc (db : DB) (c : Coupon)
    (hn : (db.coupons.map Coupon.id).Nodup)
    (hinv : couponInv db.coupons)
    (hmem : c ∈ db.coupons)
    (hguard : ¬(c.usageLimit > 0 ∧ c.usageCount ≥ c.usageLimit)) :
    couponInv (incCoupon db c.id).coupons := by
  intro y hy hylim
  simp only [incCoupon, List.mem_map] at hy
  obtain ⟨x, hx, rfl⟩ := hy
  by_cases hxid : x.id = c.id
  · have hxc : x = c := List.inj_on_of_nodup_map hn hx hmem hxid
    subst hxc
    rw [if_pos rfl] at hylim ⊢
    simp only at hylim ⊢
    have := hinv x hx
    omega
  · rw [if_neg hxid] at hylim ⊢
    exact hinv x hx hylim

lemma couponIds_inc (db : DB) (cid : String) :
    (incCoupon db cid).coupons.map Coupon.id = db.coupons.map Coupon.id := by
  have hid : ∀ x : Coupon,
      (if x.id = cid then { x with usageCount := x.usageCount + 1 }
       else x).id = x.id := by
    intro x
    split <;> rfl
  simp [incCoupon, List.map_map, Function.comp_def, hid]

lemma processGroups_couponInv (env : Env) (oracle : Nat → Bool)
    (uid : String) :
    ∀ (gs : List (String × List CartItem)) (i : Nat) (db : DB)
      (acc : List Order),
      (db.coupons.map Coupon.id).Nodup →
      couponInv db.coupons →
      couponInv ((processGroups env oracle uid gs i db acc).1).coupons := by
  intro gs
  induction gs with
  | nil => intro i db acc _ hinv; exact hinv
  | cons g rest ih =>
    obtain ⟨sid, its⟩ := g
    intro i db acc hn hinv
    cases happ : applyCouponStep env db (groupSubtotal its) with
    | error e =>
      rw [processGroups_cons_throw env oracle uid sid its rest i db acc e happ]
      exact hinv
    | ok trip =>
      obtain ⟨dbc, ft, cu⟩ := trip
      have hc2 : couponInv dbc.coupons ∧
          (dbc.coupons.map Coupon.id).Nodup := by
        rcases applyCouponStep_ok_cases env db _ dbc ft cu happ with
          rfl | ⟨c, hc, rfl, hguard⟩
        · exact ⟨hinv, hn⟩
        · refine ⟨couponInv_inc db c hn hinv
            (findCoupon_mem db c.code c (appliedCoupon_some_find env db c hc))
            hguard, ?_⟩
          rw [couponIds_inc]
          exact hn
      cases horc : oracle i with
      | true =>
        rw [processGroups_cons_fail env oracle uid sid its rest i db acc dbc
          ft cu happ horc]
        exact hc2.1
      | false =>
        rw [processGroups_cons_ok env oracle uid sid its rest i db acc dbc
          ft cu happ horc]
        have hrtc := runGroupTx_coupons env uid sid
          (mkOrderNumber (env.gen i).1 (env.gen i).2) ft cu its dbc
        apply ih
        · rw [hrtc]
          exact hc2.2
        · rw [hrtc]
          exact hc2.1

lemma createOrderF_couponInv (env : Env) (oracle : Nat → Bool)
    (uid : String) (db : DB)
    (hn : (db.coupons.map Coupon.id).Nodup)
    (hinv : couponInv db.coupons) :
    couponInv ((createOrderF env oracle uid db).1).coupons := by
  unfold createOrderF
  cases hu : findUser db uid with
  | none => exact hinv
  | some cf =>
    simp only
    by_cases hl : (cf.getD { items := [], total := 0 }).items.length = 0
    · rw [if_pos hl]
      exact hinv
    · rw [if_neg hl]
      cases hva : validateAndGroup db (cf.getD { items := [], total := 0 }).items [] with
      | error e2 => exact hinv
      | ok gs =>
        have hpgi := processGroups_couponInv env oracle uid gs 0 db [] hn hinv
        show couponInv ((match processGroups env oracle uid gs 0 db [] with
          | (d, Except.error e2) => (d, Except.error e2)
          | (d, Except.ok os2) =>
            (setUserCart d uid (some emptyCart),
             Except.ok (resultOf os2))).1).coupons
        cases hpg : processGroups env oracle uid gs 0 db [] with
        | mk db1 res =>
          rw [hpg] at hpgi
          cases res with
          | error e2 => exact hpgi
          | ok os => exact hpgi

/-! ### Claim theorems -/

/-- C3: applying a PERCENTAGE coupon of `d` ≤ 100 to a subtotal `S` ≥ 0
yields `S * (1 - d / 100)`, which is never negative, and a FIXED coupon of
amount `f` yields `max 0 (S - f)` — exactly the expression `createOrder`
computes in `discountedTotal` (lines 202–207). -/
theorem coupon_discount_formulas (S d f : ℚ) (hS : 0 ≤ S) (hd : d ≤ 100) :
    discountedTotal DiscountType.PERCENTAGE d S = S * (1 - d / 100) ∧
    0 ≤ discountedTotal DiscountType.PERCENTAGE d S ∧
    discountedTotal DiscountType.FIXED f S = max 0 (S - f) := by
  refine ⟨by simp [discountedTotal], ?_, by simp [discountedTotal]⟩
  simp only [discountedTotal, if_pos rfl]
  have h1 : 0 ≤ 1 - d / 100 := by linarith
  exact mul_nonneg hS h1

/-- Witness for C3 at S = 200, d = 10, f = 60. -/
theorem coupon_discount_formulas_witness :
    discountedTotal DiscountType.PERCENTAGE 10 200 = 200 * (1 - 10 / 100) ∧
    0 ≤ discountedTotal DiscountType.PERCENTAGE 10 200 ∧
    discountedTotal DiscountType.FIXED 60 200 = max 0 (200 - 60) :=
  coupon_discount_formulas 200 10 60 (by norm_num) (by norm_num)

/-- C5 counterexample: `cancelOrder` refuses the out-of-table transition
SHIPPED → CANCELLED with the constant message "Order cannot be cancelled
at this stage", which names neither the current status nor the requested
one, against the claim that every rejected transition's error names both. -/
theorem cancel_error_names_no_status :
    cancelOrder (dbOrder .SHIPPED) 0 "u1" =
      (dbOrder .SHIPPED,
       .error (.invalidState "Order cannot be cancelled at this stage")) ∧
    ¬((statusToString OrderStatus.SHIPPED).data <:+:
        "Order cannot be cancelled at this stage".data) ∧
    ¬((statusToString OrderStatus.CANCELLED).data <:+:
        "Order cannot be cancelled at this stage".data) := by
  refine ⟨by with_unfolding_all decide, by decide, by decide⟩

/-- C5 (amended): every status change made by `updateOrderStatus`,
`cancelOrder` or `refundOrder` follows an edge of the fixed transition
table; a requested transition not in the table fails with an InvalidState
error and leaves the database (hence the order's status) unchanged;
`updateOrderStatus`'s message names the current and requested status while
`cancelOrder` and `refundOrder` use fixed messages; and from DELIVERED,
REFUNDED is reachable and CONFIRMED is refused. -/
theorem status_transitions_follow_table :
    (∀ (db : DB) (oid : Nat) (st : OrderStatus) (u : String) (db2 : DB)
       (o2 : Order),
      updateOrderStatus db oid st u = (db2, .ok o2) →
      ∃ o, findOrder db oid = some o ∧ st ∈ validTransitions o.status ∧
        db2 = setOrderStatus db oid st ∧ o2 = { o with status := st }) ∧
    (∀ (db : DB) (oid : Nat) (st : OrderStatus) (u : String) (o : Order),
      findOrder db oid = some o →
      (findStoreOwner db o.storeId).getD "" = u →
      st ∉ validTransitions o.status →
      updateOrderStatus db oid st u =
        (db, .error (.invalidState
          ("Cannot change status from " ++ statusToString o.status ++
           " to " ++ statusToString st)))) ∧
    (∀ (db : DB) (oid : Nat) (u : String) (db2 : DB) (o2 : Order),
      cancelOrder db oid u = (db2, .ok o2) →
      ∃ o, findOrder db oid = some o ∧
        OrderStatus.CANCELLED ∈ validTransitions o.status ∧
        db2 = setOrderStatus db oid .CANCELLED) ∧
    (∀ (db : DB) (oid : Nat) (u : String) (o : Order),
      findOrder db oid = some o →
      (o.userId = u ∨ (findStoreOwner db o.storeId).getD "" = u) →
      o.status ∉ [OrderStatus.PENDING, .CONFIRMED, .PROCESSING] →
      cancelOrder db oid u =
        (db, .error
          (.invalidState "Order cannot be cancelled at this stage"))) ∧
    (∀ (db : DB) (oid : Nat) (db2 : DB) (o2 : Order),
      refundOrder db oid = (db2, .ok o2) →
      ∃ o, findOrder db oid = some o ∧ o.status = .DELIVERED ∧
        OrderStatus.REFUNDED ∈ validTransitions o.status ∧
        db2 = setOrderStatus db oid .REFUNDED) ∧
    (∀ (db : DB) (oid : Nat) (o : Order),
      findOrder db oid = some o → o.status ≠ .DELIVERED →
      refundOrder db oid =
        (db, .error
          (.invalidState "Only delivered orders can be refunded"))) ∧
    (∀ (db : DB) (oid : Nat) (u : String) (o : Order),
      findOrder db oid = some o → o.status = .DELIVERED →
      (findStoreOwner db o.storeId).getD "" = u →
      updateOrderStatus db oid .REFUNDED u =
        (setOrderStatus db oid .REFUNDED,
         .ok { o with status := .REFUNDED }) ∧
      updateOrderStatus db oid .CONFIRMED u =
        (db, .error (.invalidState
          "Cannot change status from DELIVERED to CONFIRMED"))) := by
  refine ⟨?_, ?_, ?_, ?_, ?_, ?_, ?_⟩
  · intro db oid st u db2 o2 h
    cases hf : findOrder db oid with
    | none => simp [updateOrderStatus, hf] at h
    | some o =>
      simp only [updateOrderStatus, hf] at h
      split_ifs at h with h1 h2
      · simp at h
      · simp only [Prod.mk.injEq, Except.ok.injEq] at h
        exact ⟨o, rfl, h2, h.1.symm, h.2.symm⟩
      · simp at h
  · intro db oid st u o hf hown hmem
    simp only [updateOrderStatus, hf]
    rw [if_neg (by simp [hown]), if_neg hmem]
  · intro db oid u db2 o2 h
    cases hf : findOrder db oid with
    | none => simp [cancelOrder, hf] at h
    | some o =>
      simp only [cancelOrder, hf] at h
      by_cases hcan : o.userId = u ∨ (findStoreOwner db o.storeId).getD "" = u
      · rw [if_neg (not_not_intro hcan)] at h
        by_cases hst : o.status ∈ [OrderStatus.PENDING, .CONFIRMED, .PROCESSING]
        · rw [if_neg (not_not_intro hst)] at h
          simp only [Prod.mk.injEq] at h
          refine ⟨o, rfl, ?_, h.1.symm⟩
          simp only [List.mem_cons, List.mem_singleton,
            List.not_mem_nil, or_false] at hst
          rcases hst with h3 | h3 | h3 <;>
            (rw [h3]; simp [validTransitions])
        · rw [if_pos hst] at h
          simp at h
      · rw [if_pos hcan] at h
        simp at h
  · intro db oid u o hf hcan hst
    simp only [cancelOrder, hf]
    rw [if_neg (by simp only [not_not]; exact hcan), if_pos hst]
  · intro db oid db2 o2 h
    cases hf : findOrder db oid with
    | none => simp [refundOrder, hf] at h
    | some o =>
      simp only [refundOrder, hf] at h
      split_ifs at h with h1
      · simp at h
      · simp only [Prod.mk.injEq] at h
        have hdel : o.status = .DELIVERED := by
          by_contra hcon
          exact h1 hcon
        exact ⟨o, rfl, hdel, by rw [hdel]; simp [validTransitions], h.1.symm⟩
  · intro db oid o hf hnd
    simp only [refundOrder, hf]
    rw [if_pos hnd]
  · intro db oid u o hf hdel hown
    constructor
    · simp only [updateOrderStatus, hf]
      rw [if_neg (by simp [hown]),
        if_pos (by rw [hdel]; simp [validTransitions])]
    · simp only [updateOrderStatus, hf]
      rw [if_neg (by simp [hown]),
        if_neg (by rw [hdel]; simp [validTransitions])]
      rw [hdel]
      rfl

/-- Witness for C5 on a concrete DELIVERED order: the owner's refund
request succeeds along the table's edge and a CONFIRMED request is
refused. -/
theorem status_transitions_follow_table_witness :
    updateOrderStatus (dbOrder .DELIVERED) 0 .REFUNDED "seller1" =
      (setOrderStatus (dbOrder .DELIVERED) 0 .REFUNDED,
       .ok { id := 0, orderNumber := "ORD-x-y", total := 10, userId := "u1",
             storeId := "S1", paymentMethod := "COD", isCouponUsed := false,
             coupon := none, status := .REFUNDED }) ∧
    updateOrderStatus (dbOrder .DELIVERED) 0 .CONFIRMED "seller1" =
      (dbOrder .DELIVERED, .error (.invalidState
        "Cannot change status from DELIVERED to CONFIRMED")) := by
  have h := (status_transitions_follow_table.2.2.2.2.2.2)
    (dbOrder .DELIVERED) 0 "seller1"
    { id := 0, orderNumber := "ORD-x-y", total := 10, userId := "u1",
      storeId := "S1", paymentMethod := "COD", isCouponUsed := false,
      coupon := none, status := .DELIVERED }
    (by with_unfolding_all decide) rfl (by with_unfolding_all decide)
  exact h

/-- C6 (code_bug evidence): the status route passes only the caller's id
to the service, which compares it with the store owner's id, so an
administrator who does not own the store is rejected with AccessDenied on
PUT /api/orders/:id/status, while the owning seller succeeds; the buyer's
only path to a status change is cancelOrder. -/
theorem admin_rejected_on_status_route :
    updateOrderStatusRoute (dbOrder .PENDING) ⟨"admin1", .ADMIN⟩ 0
      .CONFIRMED =
      (dbOrder .PENDING, .error (.accessDenied "Access denied")) ∧
    (updateOrderStatusRoute (dbOrder .PENDING) ⟨"seller1", .SELLER⟩ 0
      .CONFIRMED).2 =
      .ok { id := 0, orderNumber := "ORD-x-y", total := 10, userId := "u1",
            storeId := "S1", paymentMethod := "COD", isCouponUsed := false,
            coupon := none, status := .CONFIRMED } ∧
    (cancelOrder (dbOrder .PENDING) 0 "u1").2 =
      .ok { id := 0, orderNumber := "ORD-x-y", total := 10, userId := "u1",
            storeId := "S1", paymentMethod := "COD", isCouponUsed := false,
            coupon := none, status := .CANCELLED } := by
  refine ⟨by with_unfolding_all decide, by with_unfolding_all decide,
    by with_unfolding_all decide⟩

/-- C1 counterexample: a non-empty cart of existing, in-stock,
price-matching products together with an exhausted (active, unexpired)
coupon code makes `createOrder` fail with no order created at all, so the
claim's per-store order creation does not hold unconditionally. -/
theorem valid_cart_exhausted_coupon_creates_nothing :
    createOrder envA "u1" dbExhausted =
      (dbExhausted, .error (.invalidState "Coupon usage limit exceeded")) ∧
    findUser dbExhausted "u1" = some (some cartAB) ∧
    cartAB.items ≠ [] ∧
    (∀ it ∈ cartAB.items, itemValidB dbExhausted it = true) := by
  refine ⟨by with_unfolding_all decide, by with_unfolding_all decide,
    by with_unfolding_all decide, by with_unfolding_all decide⟩

/-- C8 counterexample: when the entropy draws (`Date.now()` string and
`Math.random()` suffix) coincide for the two store groups of one call —
which nothing in the code prevents — the two created orders carry the same
orderNumber, refuting unconditional uniqueness. -/
theorem colliding_entropy_duplicates_order_numbers :
    (createOrder envConst "u1" dbA).2 =
      .ok (.many [c8order1, c8order2]) ∧
    c8order1.orderNumber = c8order2.orderNumber ∧
    c8order1.storeId ≠ c8order2.storeId := by
  refine ⟨by with_unfolding_all decide, by decide, by decide⟩

lemma resultOf_of_length_ne_one (os : List Order) (h : os.length ≠ 1) :
    resultOf os = .many os := by
  cases os with
  | nil => rfl
  | cons a rest =>
    cases rest with
    | nil => simp at h
    | cons b r2 => rfl

lemma findCoupon_setUserCart (db : DB) (uid : String) (cart : Option Cart)
    (code : String) :
    findCoupon (setUserCart db uid cart) code = findCoupon db code := rfl

lemma groupAll_filter_at (db : DB) (cart : Cart) (k : Nat)
    (hk2 : k < (groupAll db cart.items []).length) :
    ((groupAll db cart.items []).get ⟨k, hk2⟩).2 =
      cart.items.filter (fun it =>
        storeOfD db it = ((groupAll db cart.items []).get ⟨k, hk2⟩).1) := by
  have hnd : ((groupAll db cart.items []).map Prod.fst).Nodup :=
    groupAll_keys_nodup db cart.items [] (by simp)
  have h1 := lookupGroup_get (groupAll db cart.items []) hnd k hk2
  have h2 := groupAll_lookup db cart.items []
    (((groupAll db cart.items []).get ⟨k, hk2⟩).1)
  rw [lookupGroup_nil, List.nil_append] at h2
  rw [← h1, h2]

/-- C1 (amended): for every user whose cart is non-empty and references
only existing, in-stock products at unchanged prices, and whose coupon
code — when it resolves to an active, unexpired coupon with a positive
usage limit — still has usage room for every store group, `createOrder`
creates exactly one Order per distinct owning store represented in the
cart (positionally matching the first-occurrence grouping, never mixing
stores), each total being the store group's subtotal reduced by the
coupon when applied, overwrites the cart with the empty cart, and returns
the single Order when one store is represented and the list otherwise. -/
theorem createOrder_one_order_per_store
    (env : Env) (db : DB) (uid : String) (cart : Cart)
    (hu : findUser db uid = some (some cart))
    (hne : cart.items ≠ [])
    (hv : ∀ it ∈ cart.items, itemValidB db it = true)
    (hc : couponAvailB env db (groupAll db cart.items []).length = true) :
    ∃ db1 os,
      os = expOrders env db uid db.nextOrderId 0 (groupAll db cart.items []) ∧
      createOrder env uid db =
        (setUserCart db1 uid (some emptyCart), .ok (resultOf os)) ∧
      db1.orders = db.orders ++ os ∧
      db1.orderItems =
        db.orderItems ++ expRows db.nextOrderId (groupAll db cart.items []) ∧
      os ≠ [] ∧
      (os.map Order.storeId).Nodup ∧
      (∀ s, s ∈ os.map Order.storeId ↔
        ∃ it ∈ cart.items, storeOfD db it = s) ∧
      (∀ k (hk : k < os.length),
        (os.get ⟨k, hk⟩).total =
          expectedTotal env db (groupSubtotal (cart.items.filter
            (fun it => storeOfD db it = (os.get ⟨k, hk⟩).storeId)))) ∧
      (os.length = 1 → ∃ o, os = [o] ∧ resultOf os = .one o) ∧
      (os.length ≠ 1 → resultOf os = .many os) := by
  obtain ⟨db1, heq, hord, hitems, husers, hprods, hstores, hnext, hcnone,
    hcsome⟩ := processGroups_ok env (fun _ => false) uid
      (groupAll db cart.items []) 0 db [] (fun k hk => rfl) hc
  simp only [List.nil_append] at heq
  refine ⟨db1, expOrders env db uid db.nextOrderId 0
    (groupAll db cart.items []), rfl,
    createOrderF_run_ok env (fun _ => false) uid db cart db1 _ hu hne hv heq,
    hord, hitems, ?_, ?_, ?_, ?_, ?_, ?_⟩
  · intro hnil
    have hlen := congrArg List.length hnil
    rw [expOrders_length] at hlen
    exact groupAll_of_ne_nil db cart.items hne (List.length_eq_zero.mp hlen)
  · rw [expOrders_map_storeId]
    exact groupAll_keys_nodup db cart.items [] (by simp)
  · intro s
    rw [expOrders_map_storeId]
    have := groupAll_keys_mem db cart.items [] s
    simpa using this
  · intro k hk
    have hk2 : k < (groupAll db cart.items []).length := by
      have := hk
      rw [expOrders_length] at this
      exact this
    rw [expOrders_get env db uid _ db.nextOrderId 0 k hk2 hk]
    show expectedTotal env db
        (groupSubtotal ((groupAll db cart.items []).get ⟨k, hk2⟩).2) =
      expectedTotal env db (groupSubtotal (cart.items.filter
        (fun it => storeOfD db it =
          ((groupAll db cart.items []).get ⟨k, hk2⟩).1)))
    rw [← groupAll_filter_at db cart k hk2]
  · intro hlen
    obtain ⟨o, ho⟩ := List.length_eq_one.mp hlen
    exact ⟨o, ho, by rw [ho]; rfl⟩
  · exact resultOf_of_length_ne_one _

/-- Witness for C1 on the two-store cart `cartAB` in `dbA` with SAVE10. -/
theorem createOrder_one_order_per_store_witness :
    ∃ db1 os,
      os = expOrders envA dbA "u1" dbA.nextOrderId 0
        (groupAll dbA cartAB.items []) ∧
      createOrder envA "u1" dbA =
        (setUserCart db1 "u1" (some emptyCart), .ok (resultOf os)) ∧
      db1.orders = dbA.orders ++ os ∧
      db1.orderItems =
        dbA.orderItems ++ expRows dbA.nextOrderId
          (groupAll dbA cartAB.items []) ∧
      os ≠ [] ∧
      (os.map Order.storeId).Nodup ∧
      (∀ s, s ∈ os.map Order.storeId ↔
        ∃ it ∈ cartAB.items, storeOfD dbA it = s) ∧
      (∀ k (hk : k < os.length),
        (os.get ⟨k, hk⟩).total =
          expectedTotal envA dbA (groupSubtotal (cartAB.items.filter
            (fun it => storeOfD dbA it = (os.get ⟨k, hk⟩).storeId)))) ∧
      (os.length = 1 → ∃ o, os = [o] ∧ resultOf os = .one o) ∧
      (os.length ≠ 1 → resultOf os = .many os) :=
  createOrder_one_order_per_store envA dbA "u1" cartAB
    (by with_unfolding_all decide) (by with_unfolding_all decide)
    (by with_unfolding_all decide) (by with_unfolding_all decide)

/-- C7: when the supplied coupon resolves to an active, unexpired coupon
with usage room at every group, `createOrder` applies it to each store
group's pre-discount subtotal and increments its usageCount once per
group — N times for an N-store checkout; concretely, the spec's SAVE10
scenario yields totals 180 and 45 and a usage count of 2. -/
theorem coupon_applied_and_counted_per_group :
    (∀ (env : Env) (db : DB) (uid : String) (cart : Cart) (c : Coupon),
      findUser db uid = some (some cart) →
      cart.items ≠ [] →
      (∀ it ∈ cart.items, itemValidB db it = true) →
      couponAvailB env db (groupAll db cart.items []).length = true →
      appliedCoupon env db = some c →
      ∃ db1 os,
        os = expOrders env db uid db.nextOrderId 0
          (groupAll db cart.items []) ∧
        createOrder env uid db =
          (setUserCart db1 uid (some emptyCart), .ok (resultOf os)) ∧
        os.length = (groupAll db cart.items []).length ∧
        findCoupon (createOrder env uid db).1 c.code =
          some { c with usageCount := c.usageCount + os.length } ∧
        (∀ k (hk : k < os.length),
          (os.get ⟨k, hk⟩).total =
            discountedTotal c.discountType c.discount
              (groupSubtotal (cart.items.filter
                (fun it => storeOfD db it = (os.get ⟨k, hk⟩).storeId))))) ∧
    ((createOrder envA "u1" dbA).2 = .ok (.many [c7order1, c7order2]) ∧
     (findCoupon (createOrder envA "u1" dbA).1 "SAVE10").map
       Coupon.usageCount = some 2) := by
  constructor
  · intro env db uid cart c hu hne hv hc hac
    obtain ⟨db1, heq, hord, hitems, husers, hprods, hstores, hnext, hcnone,
      hcsome⟩ := processGroups_ok env (fun _ => false) uid
        (groupAll db cart.items []) 0 db [] (fun k hk => rfl) hc
    simp only [List.nil_append] at heq
    have hrun := createOrderF_run_ok env (fun _ => false) uid db cart db1 _
      hu hne hv heq
    refine ⟨db1, expOrders env db uid db.nextOrderId 0
      (groupAll db cart.items []), rfl, hrun, expOrders_length env db uid _
        db.nextOrderId 0, ?_, ?_⟩
    · have hcount := hcsome c hac
      show findCoupon (createOrderF env (fun _ => false) uid db).1 c.code = _
      rw [hrun]
      show findCoupon (setUserCart db1 uid (some emptyCart)) c.code = _
      rw [findCoupon_setUserCart, hcount, expOrders_length]
    · intro k hk
      have hk2 : k < (groupAll db cart.items []).length := by
        have := hk
        rw [expOrders_length] at this
        exact this
      rw [expOrders_get env db uid _ db.nextOrderId 0 k hk2 hk]
      show expectedTotal env db
          (groupSubtotal ((groupAll db cart.items []).get ⟨k, hk2⟩).2) =
        discountedTotal c.discountType c.discount
          (groupSubtotal (cart.items.filter (fun it => storeOfD db it =
            ((groupAll db cart.items []).get ⟨k, hk2⟩).1)))
      rw [← groupAll_filter_at db cart k hk2,
        expectedTotal_some env db _ c hac]
  · exact ⟨by with_unfolding_all decide, by with_unfolding_all decide⟩

/-- Witness for C7's general part at the SAVE10 two-store scenario. -/
theorem coupon_applied_and_counted_per_group_witness :
    ∃ db1 os,
      os = expOrders envA dbA "u1" dbA.nextOrderId 0
        (groupAll dbA cartAB.items []) ∧
      createOrder envA "u1" dbA =
        (setUserCart db1 "u1" (some emptyCart), .ok (resultOf os)) ∧
      os.length = (groupAll dbA cartAB.items []).length ∧
      findCoupon (createOrder envA "u1" dbA).1 save10.code =
        some { save10 with usageCount := save10.usageCount + os.length } ∧
      (∀ k (hk : k < os.length),
        (os.get ⟨k, hk⟩).total =
          discountedTotal save10.discountType save10.discount
            (groupSubtotal (cartAB.items.filter
              (fun it => storeOfD dbA it = (os.get ⟨k, hk⟩).storeId)))) :=
  coupon_applied_and_counted_per_group.1 envA dbA "u1" cartAB save10
    (by with_unfolding_all decide) (by with_unfolding_all decide)
    (by with_unfolding_all decide) (by with_unfolding_all decide)
    (by with_unfolding_all decide)

/-- C8 (amended): each group's orderNumber is exactly
`ORD-<timestamp>-<suffix>` built from that group's entropy draw, so the
numbers within one call are pairwise distinct exactly when the draws
produce distinct strings; the code performs no uniqueness check of its
own, so colliding draws yield duplicate numbers. -/
theorem order_numbers_distinct_iff_draws_distinct
    (env : Env) (db : DB) (uid : String) (cart : Cart)
    (hu : findUser db uid = some (some cart))
    (hne : cart.items ≠ [])
    (hv : ∀ it ∈ cart.items, itemValidB db it = true)
    (hc : couponAvailB env db (groupAll db cart.items []).length = true)
    (hinj : ∀ j k : Nat, j ≠ k →
      mkOrderNumber (env.gen j).1 (env.gen j).2 ≠
        mkOrderNumber (env.gen k).1 (env.gen k).2) :
    ∃ db1 os,
      os = expOrders env db uid db.nextOrderId 0
        (groupAll db cart.items []) ∧
      createOrder env uid db =
        (setUserCart db1 uid (some emptyCart), .ok (resultOf os)) ∧
      ((os.map Order.orderNumber).Nodup) := by
  obtain ⟨db1, heq, hord, hitems, husers, hprods, hstores, hnext, hcnone,
    hcsome⟩ := processGroups_ok env (fun _ => false) uid
      (groupAll db cart.items []) 0 db [] (fun k hk => rfl) hc
  simp only [List.nil_append] at heq
  exact ⟨db1, expOrders env db uid db.nextOrderId 0
    (groupAll db cart.items []), rfl,
    createOrderF_run_ok env (fun _ => false) uid db cart db1 _ hu hne hv heq,
    expOrders_orderNumbers_nodup env db uid hinj _ db.nextOrderId 0⟩

/-- Witness for C8's amended statement: with an entropy source whose draws
differ in length across calls, the two orders of the `dbA` checkout get
distinct numbers. -/
theorem order_numbers_distinct_iff_draws_distinct_witness :
    ∃ db1 os,
      os = expOrders envW dbA "u1" dbA.nextOrderId 0
        (groupAll dbA cartAB.items []) ∧
      createOrder envW "u1" dbA =
        (setUserCart db1 "u1" (some emptyCart), .ok (resultOf os)) ∧
      ((os.map Order.orderNumber).Nodup) := by
  refine order_numbers_distinct_iff_draws_distinct envW dbA "u1" cartAB
    (by with_unfolding_all decide) (by with_unfolding_all decide)
    (by with_unfolding_all decide) (by with_unfolding_all decide) ?_
  intro j k hjk heq
  apply hjk
  have hlen := congrArg String.length heq
  simp only [mkOrderNumber, envW, String.length_append] at hlen
  rw [String.length_mk, String.length_mk] at hlen
  simpa using hlen

/-- C10: a coupon code that matches no stored coupon, or an inactive or
expired one, does not fail the call: every order is created at the full
undiscounted group total with `isCouponUsed = false` and a null coupon
field, and the coupon table is untouched. -/
theorem inapplicable_coupon_is_ignored
    (env : Env) (db : DB) (uid : String) (cart : Cart) (code : String)
    (hu : findUser db uid = some (some cart))
    (hne : cart.items ≠ [])
    (hv : ∀ it ∈ cart.items, itemValidB db it = true)
    (_hcc : env.couponCode = some code)
    (hna : appliedCoupon env db = none) :
    ∃ db1 os,
      os = expOrders env db uid db.nextOrderId 0
        (groupAll db cart.items []) ∧
      createOrder env uid db =
        (setUserCart db1 uid (some emptyCart), .ok (resultOf os)) ∧
      db1.coupons = db.coupons ∧
      os ≠ [] ∧
      (∀ o ∈ os, o.isCouponUsed = false ∧ o.coupon = none) ∧
      (∀ k (hk : k < os.length),
        (os.get ⟨k, hk⟩).total =
          groupSubtotal (cart.items.filter
            (fun it => storeOfD db it = (os.get ⟨k, hk⟩).storeId))) := by
  obtain ⟨db1, heq, hord, hitems, husers, hprods, hstores, hnext, hcnone,
    hcsome⟩ := processGroups_ok env (fun _ => false) uid
      (groupAll db cart.items []) 0 db []
      (fun k hk => rfl)
      (couponAvailB_none env db _ hna)
  simp only [List.nil_append] at heq
  refine ⟨db1, expOrders env db uid db.nextOrderId 0
    (groupAll db cart.items []), rfl,
    createOrderF_run_ok env (fun _ => false) uid db cart db1 _ hu hne hv heq,
    hcnone hna, ?_, ?_, ?_⟩
  · intro hnil
    have hlen := congrArg List.length hnil
    rw [expOrders_length] at hlen
    exact groupAll_of_ne_nil db cart.items hne (List.length_eq_zero.mp hlen)
  · intro o ho
    obtain ⟨h1, h2, _, _⟩ := expOrders_fields env db uid _ _ _ o ho
    rw [hna] at h1 h2
    exact ⟨h1, by simpa using h2⟩
  · intro k hk
    have hk2 : k < (groupAll db cart.items []).length := by
      have := hk
      rw [expOrders_length] at this
      exact this
    rw [expOrders_get env db uid _ db.nextOrderId 0 k hk2 hk]
    show expectedTotal env db
        (groupSubtotal ((groupAll db cart.items []).get ⟨k, hk2⟩).2) =
      groupSubtotal (cart.items.filter (fun it => storeOfD db it =
        ((groupAll db cart.items []).get ⟨k, hk2⟩).1))
    rw [← groupAll_filter_at db cart k hk2, expectedTotal_none env db _ hna]

/-- Witness for C10: the SAVE10 code over `dbExpired`, whose coupon is
expired relative to the request clock. -/
theorem inapplicable_coupon_is_ignored_witness :
    ∃ db1 os,
      os = expOrders envA dbExpired "u1" dbExpired.nextOrderId 0
        (groupAll dbExpired cartAB.items []) ∧
      createOrder envA "u1" dbExpired =
        (setUserCart db1 "u1" (some emptyCart), .ok (resultOf os)) ∧
      db1.coupons = dbExpired.coupons ∧
      os ≠ [] ∧
      (∀ o ∈ os, o.isCouponUsed = false ∧ o.coupon = none) ∧
      (∀ k (hk : k < os.length),
        (os.get ⟨k, hk⟩).total =
          groupSubtotal (cartAB.items.filter
            (fun it => storeOfD dbExpired it = (os.get ⟨k, hk⟩).storeId))) :=
  inapplicable_coupon_is_ignored envA dbExpired "u1" cartAB "SAVE10"
    (by with_unfolding_all decide) (by with_unfolding_all decide)
    (by with_unfolding_all decide) (by with_unfolding_all decide)
    (by with_unfolding_all decide)

/-- C2: a cart containing an item whose product is missing, out of stock,
or re-priced makes `createOrder` fail with the first offending item's
error — NotFound for a missing product, InvalidState otherwise — with the
whole database returned unchanged (zero Order/OrderItem rows, cart
untouched); and every failing run, whatever the cause, leaves the users
table (hence the stored cart) unchanged: the cart is rewritten only after
every store group has been processed successfully. -/
theorem invalid_item_fails_without_writes :
    (∀ (env : Env) (oracle : Nat → Bool) (uid : String) (db : DB)
       (cart : Cart) (pre post : List CartItem) (it : CartItem),
      findUser db uid = some (some cart) →
      cart.items = pre ++ it :: post →
      (∀ x ∈ pre, itemValidB db x = true) →
      itemValidB db it = false →
      createOrderF env oracle uid db = (db, .error (itemError db it)) ∧
      (findProduct db it.productId = none →
        ∃ m, itemError db it = .notFound m) ∧
      (∀ p, findProduct db it.productId = some p →
        ∃ m, itemError db it = .invalidState m)) ∧
    (∀ (env : Env) (oracle : Nat → Bool) (uid : String) (db : DB) (r : DB)
       (e : OrderError),
      createOrderF env oracle uid db = (r, .error e) →
      r.users = db.users) := by
  constructor
  · intro env oracle uid db cart pre post it hu hsplit hvpre hbad
    refine ⟨createOrderF_run_invalid env oracle uid db cart pre post it hu
      hsplit hvpre hbad, ?_, ?_⟩
    · intro hp
      exact ⟨"Product " ++ it.productId ++ " not found",
        by simp [itemError, hp]⟩
    · intro p hp
      by_cases hstock : p.inStock = false
      · exact ⟨"Product " ++ p.name ++ " is out of stock",
          by simp [itemError, hp, hstock]⟩
      · exact ⟨"Price changed for product " ++ p.name,
          by simp [itemError, hp, hstock]⟩
  · exact createOrderF_error_users

/-- Witness for C2: product B of `dbOutOfStock` is out of stock, so the
checkout fails with its InvalidState error and no database write. -/
theorem invalid_item_fails_without_writes_witness :
    createOrderF envA (fun _ => false) "u1" dbOutOfStock =
      (dbOutOfStock, .error (itemError dbOutOfStock
        { productId := "B", quantity := 1, price := 50 })) ∧
    (findProduct dbOutOfStock "B" = none →
      ∃ m, itemError dbOutOfStock
        { productId := "B", quantity := 1, price := 50 } = .notFound m) ∧
    (∀ p, findProduct dbOutOfStock "B" = some p →
      ∃ m, itemError dbOutOfStock
        { productId := "B", quantity := 1, price := 50 } =
          .invalidState m) :=
  invalid_item_fails_without_writes.1 envA (fun _ => false) "u1"
    dbOutOfStock cartAB [{ productId := "A", quantity := 2, price := 100 }]
    [] { productId := "B", quantity := 1, price := 50 }
    (by with_unfolding_all decide) (by with_unfolding_all decide)
    (by with_unfolding_all decide) (by with_unfolding_all decide)

/-- C4: an active, unexpired coupon whose usageCount has reached (or
passed) its positive usageLimit makes `createOrder` fail with
InvalidState "Coupon usage limit exceeded", returning the database
unchanged — no discount applied, no order created, no counter moved; and
any single `createOrderF` run (whatever the transaction outcomes)
preserves the invariant that no coupon's usageCount exceeds its positive
usageLimit — so the invariant holds across any sequence of calls. -/
theorem exhausted_coupon_rejected_and_limit_invariant :
    (∀ (env : Env) (db : DB) (uid : String) (cart : Cart) (c : Coupon),
      findUser db uid = some (some cart) →
      cart.items ≠ [] →
      (∀ it ∈ cart.items, itemValidB db it = true) →
      appliedCoupon env db = some c →
      c.usageLimit > 0 →
      c.usageCount ≥ c.usageLimit →
      createOrder env uid db =
        (db, .error (.invalidState "Coupon usage limit exceeded"))) ∧
    (∀ (env : Env) (oracle : Nat → Bool) (uid : String) (db : DB),
      (db.coupons.map Coupon.id).Nodup →
      couponInv db.coupons →
      couponInv ((createOrderF env oracle uid db).1).coupons) := by
  constructor
  · intro env db uid cart c hu hne hv hac h1 h2
    have hgne : groupAll db cart.items [] ≠ [] :=
      groupAll_of_ne_nil db cart.items hne
    cases hgs : groupAll db cart.items [] with
    | nil => exact absurd hgs hgne
    | cons g rest =>
      obtain ⟨sid, its⟩ := g
      have hstep := applyCouponStep_exhausted env db (groupSubtotal its) c
        hac h1 h2
      have hthrow := processGroups_cons_throw env (fun _ => false) uid sid
        its rest 0 db [] _ hstep
      exact createOrderF_run_err env (fun _ => false) uid db cart db
        (.invalidState "Coupon usage limit exceeded") hu hne hv
        (by rw [hgs]; exact hthrow)
  · exact createOrderF_couponInv

/-- Witness for C4 at `dbExhausted` (SAVE10 with limit 1, count 1). -/
theorem exhausted_coupon_rejected_and_limit_invariant_witness :
    createOrder envA "u1" dbExhausted =
      (dbExhausted, .error (.invalidState "Coupon usage limit exceeded")) ∧
    couponInv ((createOrderF envA (fun _ => false) "u1"
      dbExhausted).1).coupons :=
  ⟨exhausted_coupon_rejected_and_limit_invariant.1 envA dbExhausted "u1"
      cartAB { save10 with usageLimit := 1, usageCount := 1 }
      (by with_unfolding_all decide) (by with_unfolding_all decide)
      (by with_unfolding_all decide) (by with_unfolding_all decide)
      (by with_unfolding_all decide) (by with_unfolding_all decide),
   exhausted_coupon_rejected_and_limit_invariant.2 envA (fun _ => false)
      "u1" dbExhausted (by with_unfolding_all decide)
      (by unfold couponInv; with_unfolding_all decide)⟩

/-- C9: each store group's Order row and OrderItem rows are applied as
one atomic transaction; when the store layer aborts group `k`'s
transaction, the error propagates out of `createOrder`, the failed group
leaves no Order or OrderItem row, the `k` earlier groups' committed
orders persist, the stored cart is untouched, and the coupon increment
performed before the failed group's transaction persists as well. -/
theorem group_tx_atomic_no_cross_group_rollback
    (env : Env) (oracle : Nat → Bool) (uid : String) (db : DB)
    (cart : Cart) (k : Nat)
    (hu : findUser db uid = some (some cart))
    (hne : cart.items ≠ [])
    (hv : ∀ it ∈ cart.items, itemValidB db it = true)
    (hk : k < (groupAll db cart.items []).length)
    (hor : ∀ j, j < k → oracle j = false)
    (hork : oracle k = true)
    (hc : couponAvailB env db (k + 1) = true) :
    ∃ db1,
      createOrderF env oracle uid db = (db1, .error .dbFail) ∧
      db1.orders = db.orders ++
        expOrders env db uid db.nextOrderId 0
          ((groupAll db cart.items []).take k) ∧
      (expOrders env db uid db.nextOrderId 0
          ((groupAll db cart.items []).take k)).length = k ∧
      db1.orderItems = db.orderItems ++
        expRows db.nextOrderId ((groupAll db cart.items []).take k) ∧
      db1.users = db.users ∧
      (appliedCoupon env db = none → db1.coupons = db.coupons) ∧
      (∀ c, appliedCoupon env db = some c →
        findCoupon db1 c.code =
          some { c with usageCount := c.usageCount + (k + 1) }) := by
  obtain ⟨db1, heq, hord, hitems, husers, hcnone, hcsome⟩ :=
    processGroups_fail env oracle uid (groupAll db cart.items []) k 0 db []
      hk (by intro j hj; simpa using hor j hj) (by simpa using hork) hc
  refine ⟨db1,
    createOrderF_run_err env oracle uid db cart db1 .dbFail hu hne hv heq,
    hord, ?_, hitems, husers, hcnone, hcsome⟩
  rw [expOrders_length, List.length_take]
  omega

/-- Witness for C9: the two-store `dbA` checkout whose second group's
transaction aborts — the first store's order persists, the second leaves
nothing, and SAVE10 is incremented twice. -/
theorem group_tx_atomic_no_cross_group_rollback_witness :
    ∃ db1,
      createOrderF envA (fun i => decide (i = 1)) "u1" dbA =
        (db1, .error .dbFail) ∧
      db1.orders = dbA.orders ++
        expOrders envA dbA "u1" dbA.nextOrderId 0
          ((groupAll dbA cartAB.items []).take 1) ∧
      (expOrders envA dbA "u1" dbA.nextOrderId 0
          ((groupAll dbA cartAB.items []).take 1)).length = 1 ∧
      db1.orderItems = dbA.orderItems ++
        expRows dbA.nextOrderId ((groupAll dbA cartAB.items []).take 1) ∧
      db1.users = dbA.users ∧
      (appliedCoupon envA dbA = none → db1.coupons = dbA.coupons) ∧
      (∀ c, appliedCoupon envA dbA = some c →
        findCoupon db1 c.code =
          some { c with usageCount := c.usageCount + (1 + 1) }) :=
  group_tx_atomic_no_cross_group_rollback envA (fun i => decide (i = 1))
    "u1" dbA cartAB 1
    (by with_unfolding_all decide) (by with_unfolding_all decide)
    (by with_unfolding_all decide) (by with_unfolding_all decide)
    (by intro j hj; have hj0 : j = 0 := by omega
        subst hj0
        rfl)
    (by decide) (by with_unfolding_all decide)

end NeoMart
